import Mathlib

/-!
# ccexgo: the FTX websocket message codec and the instrument model

A shallow embedding of `exchange/ftx/message.go` with the properties of
`CodeC.Decode`, followed by `exchange/symbol.go` with the properties of the
instrument descriptors and of `Round`.

Conventions of the embedding:

* a Go `string` and a Go `[]byte` are both byte sequences (`Bytes`); the
  string literal `"error"` is `str "error"`, its UTF-8 bytes;
* a Go `int` is an `Int`;
* a Go function returning `(value, error)` where the caller drops the value
  whenever the error is non-nil is an `Except GoError value`;
* `Decode` itself keeps the Go shape: a pair of an optional response and an
  optional error, `none` standing for `nil`;
* `encoding/json` and the two record parsers that live in other files of the
  package are parameters of the codec (`Externs`).
-/

set_option linter.dupNamespace false

namespace ftx

/-- A byte sequence: the common model of Go's `string` and `[]byte`. -/
abbrev Bytes := List UInt8

/-- The bytes of a Go string literal (UTF-8). -/
def str (s : String) : Bytes := s.toUTF8.data.toList

/-- The verb `%d` of package fmt on an `int`: decimal digits, a leading `-` when negative. -/
def formatInt (i : Int) : Bytes := str (toString i)

/-- Go `error` values as far as the codec can tell them apart.
`json` is an error made by `encoding/json`, `errorf` one made by
`errors.Errorf` (carrying its formatted text), `other` any further ordinary
error a record parser may return, and `stream` the distinguished
`*rpc.StreamError` wrapping its cause. -/
inductive GoError where
  | json (text : Bytes)
  | errorf (text : Bytes)
  | other (text : Bytes)
  | stream (cause : GoError)
  deriving DecidableEq, Repr

/-- Modelled from the spec: `rpc.NewStreamError` (package internal/rpc) builds the
StreamError outcome, "a fatal signal carrying a human-readable cause". -/
def NewStreamError (err : GoError) : GoError := GoError.stream err

/-- Whether an error is an `*rpc.StreamError`. -/
def GoError.isStreamError : GoError → Bool
  | GoError.stream _ => true
  | _ => false

/-- The request the client sends to subscribe or unsubscribe (`callParam`). -/
structure callParam where
  Channel : Bytes
  Market : Bytes
  OP : Bytes
  deriving DecidableEq, Repr

/-- The envelope of an inbound frame (`callResponse`); `Typ` is the Go field `Type`,
a reserved word here. -/
structure callResponse where
  Channel : Bytes
  Market : Bytes
  Typ : Bytes
  Code : Int
  Msg : Bytes
  Data : Bytes
  deriving DecidableEq, Repr

def typeError : Bytes := str "error"
def typeSubscribed : Bytes := str "subscribed"
def typeUnSubscribed : Bytes := str "unsubscribed"
def typePong : Bytes := str "pong"
def typeInfo : Bytes := str "info"
def typePartial : Bytes := str "partial"
def typeUpdate : Bytes := str "update"

def codeReconnet : Int := 20001

def channelOrders : Bytes := str "orders"
def channelFills : Bytes := str "fills"

/-- Modelled from the spec: `rpc.Result` (package internal/rpc), the correlated call
result `Result{id, error, payload}`; `Decode` fills `ID`, `Error`, `Result`. -/
structure Result where
  ID : Bytes
  Error : Option GoError
  Result : Bytes
  deriving DecidableEq, Repr

/-- The dynamic values `Decode` stores in `Notify.Params` (an `interface{}`):
nothing, the raw `json.RawMessage` of the envelope, a parsed order or a
parsed fill. -/
inductive Params (Order Fill : Type) where
  | none
  | raw (data : Bytes)
  | order (o : Order)
  | fill (f : Fill)
  deriving DecidableEq, Repr

/-- Modelled from the spec: `rpc.Notify` (package internal/rpc), the unsolicited push
`Notify{method, params}`. -/
structure Notify (Order Fill : Type) where
  Method : Bytes
  Params : Params Order Fill
  deriving DecidableEq, Repr

/-- The values of the interface `rpc.Response` that `Decode` returns. -/
inductive Response (Order Fill : Type) where
  | result (r : Result)
  | notify (n : Notify Order Fill)
  deriving DecidableEq, Repr

/-- The key of an outcome: `ID` of a Result, `Method` of a Notify. -/
def Response.key {Order Fill : Type} : Response Order Fill → Bytes
  | Response.result r => r.ID
  | Response.notify n => n.Method

/-- What `Decode` calls outside `message.go`: `json.Unmarshal` at the three
target types (`callResponse`, the wire `Order`, `FillNotify`) and the two
record builders `parseOrderInternal` / `parseFillInternal`, which receive the
codec's `codeMap`. An envelope parse can only fail with an error of
`encoding/json`, given by its text. -/
structure Externs (WireOrder FillNotify Order Fill Symbol : Type) where
  unmarshalResponse : Bytes → Except Bytes callResponse
  unmarshalOrder : Bytes → Except GoError WireOrder
  unmarshalFill : Bytes → Except GoError FillNotify
  parseOrderInternal : WireOrder → (Bytes → Option Symbol) → Except GoError Order
  parseFillInternal : FillNotify → (Bytes → Option Symbol) → Except GoError Fill

/-- The codec (`CodeC`): the instrument table `codeMap`, keyed by the raw
market key. The embedded `*exchange.CodeC` is not read by `Decode`. -/
structure CodeC (Symbol : Type) where
  codeMap : Bytes → Option Symbol

section Codec

variable {WireOrder FillNotify Order Fill Symbol : Type}

/-- Method `CodeC.parseOrder`: unmarshal the wire order, then build the record. -/
def CodeC.parseOrder (env : Externs WireOrder FillNotify Order Fill Symbol)
    (cc : CodeC Symbol) (raw : Bytes) : Except GoError Order :=
  match env.unmarshalOrder raw with
  | Except.error err => Except.error err
  | Except.ok order => env.parseOrderInternal order cc.codeMap

/-- Method `CodeC.parseFills`: unmarshal the fill notification, then build the record. -/
def CodeC.parseFills (env : Externs WireOrder FillNotify Order Fill Symbol)
    (cc : CodeC Symbol) (raw : Bytes) : Except GoError Fill :=
  match env.unmarshalFill raw with
  | Except.error err => Except.error err
  | Except.ok fill => env.parseFillInternal fill cc.codeMap

/-- Method `CodeC.Decode`: classify one inbound frame. The result is the Go pair
`(rpc.Response, error)`. -/
def CodeC.Decode (env : Externs WireOrder FillNotify Order Fill Symbol)
    (cc : CodeC Symbol) (raw : Bytes) : Option (Response Order Fill) × Option GoError :=
  match env.unmarshalResponse raw with
  | Except.error err => (none, some (GoError.json err))
  | Except.ok cr =>
    -- id := fmt.Sprintf("%s%s", cr.Channel, cr.Market)
    let id := cr.Channel ++ cr.Market
    if cr.Typ = typeError then
      -- errors.Errorf("error msg: %s code: %d", cr.Msg, cr.Code)
      (some (Response.result
        { ID := id
          Error := some (GoError.errorf
            (str "error msg: " ++ cr.Msg ++ str " code: " ++ formatInt cr.Code))
          Result := raw }), none)
    else if cr.Typ = typeSubscribed ∨ cr.Typ = typeUnSubscribed then
      (some (Response.result { ID := id, Error := none, Result := raw }), none)
    else if cr.Typ = typePong then
      (some (Response.notify { Method := typePong, Params := Params.none }), none)
    else if cr.Typ = typeInfo then
      if cr.Code = codeReconnet then
        -- errors.Errorf("ftx ws reset info %s", string(raw))
        (none, some (NewStreamError (GoError.errorf (str "ftx ws reset info " ++ raw))))
      else
        (some (Response.notify { Method := id, Params := Params.raw cr.Data }), none)
    else if cr.Typ = typePartial ∨ cr.Typ = typeUpdate then
      if cr.Channel = channelOrders then
        match CodeC.parseOrder env cc cr.Data with
        | Except.error err => (none, some err)
        | Except.ok o => (some (Response.notify { Method := id, Params := Params.order o }), none)
      else if cr.Channel = channelFills then
        match CodeC.parseFills env cc cr.Data with
        | Except.error err => (none, some err)
        | Except.ok f => (some (Response.notify { Method := id, Params := Params.fill f }), none)
      else
        -- errors.Errorf("unsupport channel '%s'", cr.Channel)
        (none, some (GoError.errorf (str "unsupport channel '" ++ cr.Channel ++ str "'")))
    else
      -- errors.Errorf("unsupport type '%s'", cr.Typ)
      (none, some (GoError.errorf (str "unsupport type '" ++ cr.Typ ++ str "'")))

end Codec

/-! ## A concrete codec

A small instantiation of the parameters, used to run `Decode` on concrete
frames: `json.Unmarshal` restricted to a finite table of frames, and record
builders that resolve the market key of the payload in `codeMap`. -/

namespace Example

/-- A decoded payload: the market key and the numeric id it carries. -/
structure Wire where
  market : Bytes
  id : Int
  deriving DecidableEq, Repr

/-- A built record: the resolved instrument and the id. -/
structure Record where
  symbol : Bytes
  id : Int
  deriving DecidableEq, Repr

/-- Frame: the acknowledgement of a subscription to `orders` / `BTC-PERP`. -/
def subscribedFrame : Bytes :=
  str "\x7b\"type\": \"subscribed\", \"channel\": \"orders\", \"market\": \"BTC-PERP\"\x7d"

/-- The envelope of `subscribedFrame`. -/
def subscribedEnvelope : callResponse :=
  { Channel := str "orders", Market := str "BTC-PERP", Typ := str "subscribed",
    Code := 0, Msg := [], Data := [] }

/-- Frame: an exchange-reported error that carries the reconnect code. -/
def errorFrame : Bytes :=
  str "\x7b\"type\": \"error\", \"code\": 20001, \"msg\": \"Already logged in\"\x7d"

/-- The envelope of `errorFrame`. -/
def errorEnvelope : callResponse :=
  { Channel := [], Market := [], Typ := str "error",
    Code := 20001, Msg := str "Already logged in", Data := [] }

/-- Frame: the reconnect request. -/
def reconnectFrame : Bytes :=
  str "\x7b\"type\": \"info\", \"code\": 20001, \"msg\": \"reconnect\"\x7d"

/-- The envelope of `reconnectFrame`. -/
def reconnectEnvelope : callResponse :=
  { Channel := [], Market := [], Typ := str "info",
    Code := 20001, Msg := str "reconnect", Data := [] }

/-- Frame: an informational message without a code. -/
def infoFrame : Bytes :=
  str "\x7b\"type\": \"info\", \"channel\": \"fills\", \"msg\": \"hello\", \"data\": [1]\x7d"

/-- The envelope of `infoFrame`. -/
def infoEnvelope : callResponse :=
  { Channel := str "fills", Market := [], Typ := str "info",
    Code := 0, Msg := str "hello", Data := str "[1]" }

/-- Frame: a bare heartbeat. -/
def pongFrame : Bytes :=
  str "\x7b\"type\": \"pong\"\x7d"

/-- The envelope of `pongFrame`. -/
def pongEnvelope : callResponse :=
  { Channel := [], Market := [], Typ := str "pong",
    Code := 0, Msg := [], Data := [] }

/-- Frame: a heartbeat with every other field set. -/
def pongFullFrame : Bytes :=
  str "\x7b\"type\": \"pong\", \"channel\": \"orders\", \"market\": \"BTC-PERP\", \"code\": 20001, \"msg\": \"m\", \"data\": 7\x7d"

/-- The envelope of `pongFullFrame`. -/
def pongFullEnvelope : callResponse :=
  { Channel := str "orders", Market := str "BTC-PERP", Typ := str "pong",
    Code := 20001, Msg := str "m", Data := str "7" }

/-- Frame: an order update for a known instrument. -/
def orderUpdateFrame : Bytes :=
  str "\x7b\"type\": \"update\", \"channel\": \"orders\", \"data\": \x7b\"market\": \"BTC-PERP\", \"id\": 7\x7d\x7d"

/-- The envelope of `orderUpdateFrame`. -/
def orderUpdateEnvelope : callResponse :=
  { Channel := str "orders", Market := [], Typ := str "update",
    Code := 0, Msg := [], Data := str "\x7b\"market\": \"BTC-PERP\", \"id\": 7\x7d" }

/-- Frame: the same order as a snapshot. -/
def orderPartialFrame : Bytes :=
  str "\x7b\"type\": \"partial\", \"channel\": \"orders\", \"data\": \x7b\"market\": \"BTC-PERP\", \"id\": 7\x7d\x7d"

/-- The envelope of `orderPartialFrame`. -/
def orderPartialEnvelope : callResponse :=
  { Channel := str "orders", Market := [], Typ := str "partial",
    Code := 0, Msg := [], Data := str "\x7b\"market\": \"BTC-PERP\", \"id\": 7\x7d" }

/-- Frame: a fill for a known instrument. -/
def fillUpdateFrame : Bytes :=
  str "\x7b\"type\": \"update\", \"channel\": \"fills\", \"data\": \x7b\"market\": \"BTC-PERP\", \"id\": 7\x7d\x7d"

/-- The envelope of `fillUpdateFrame`. -/
def fillUpdateEnvelope : callResponse :=
  { Channel := str "fills", Market := [], Typ := str "update",
    Code := 0, Msg := [], Data := str "\x7b\"market\": \"BTC-PERP\", \"id\": 7\x7d" }

/-- Frame: a fill for an instrument the codec does not know. -/
def fillUnknownFrame : Bytes :=
  str "\x7b\"type\": \"update\", \"channel\": \"fills\", \"data\": \x7b\"market\": \"DOGE-PERP\", \"id\": 9\x7d\x7d"

/-- The envelope of `fillUnknownFrame`. -/
def fillUnknownEnvelope : callResponse :=
  { Channel := str "fills", Market := [], Typ := str "update",
    Code := 0, Msg := [], Data := str "\x7b\"market\": \"DOGE-PERP\", \"id\": 9\x7d" }

/-- Frame: an update on a channel the codec does not handle. -/
def tradesFrame : Bytes :=
  str "\x7b\"type\": \"update\", \"channel\": \"trades\", \"market\": \"BTC-PERP\", \"data\": []\x7d"

/-- The envelope of `tradesFrame`. -/
def tradesEnvelope : callResponse :=
  { Channel := str "trades", Market := str "BTC-PERP", Typ := str "update",
    Code := 0, Msg := [], Data := str "[]" }

/-- Frame: a type in upper case. -/
def upperFrame : Bytes :=
  str "\x7b\"type\": \"ERROR\", \"code\": 20001\x7d"

/-- The envelope of `upperFrame`. -/
def upperEnvelope : callResponse :=
  { Channel := [], Market := [], Typ := str "ERROR",
    Code := 20001, Msg := [], Data := [] }

/-- Frame: a type the codec does not handle, with channel, market and code set. -/
def tradeTypeFrame : Bytes :=
  str "\x7b\"type\": \"trade\", \"channel\": \"orders\", \"market\": \"BTC-PERP\", \"code\": 7\x7d"

/-- The envelope of `tradeTypeFrame`. -/
def tradeTypeEnvelope : callResponse :=
  { Channel := str "orders", Market := str "BTC-PERP", Typ := str "trade",
    Code := 7, Msg := [], Data := [] }

/-- Frame: the acknowledgement of a subscription to channel `ab`, market `c`. -/
def abFrame : Bytes :=
  str "\x7b\"type\": \"subscribed\", \"channel\": \"ab\", \"market\": \"c\"\x7d"

/-- The envelope of `abFrame`. -/
def abEnvelope : callResponse :=
  { Channel := str "ab", Market := str "c", Typ := str "subscribed",
    Code := 0, Msg := [], Data := [] }

/-- Frame: the acknowledgement of a subscription to channel `a`, market `bc`. -/
def aFrame : Bytes :=
  str "\x7b\"type\": \"subscribed\", \"channel\": \"a\", \"market\": \"bc\"\x7d"

/-- The envelope of `aFrame`. -/
def aEnvelope : callResponse :=
  { Channel := str "a", Market := str "bc", Typ := str "subscribed",
    Code := 0, Msg := [], Data := [] }

/-- Frame: an error on channel `orders`, market `BTC-PERP`. -/
def orderErrorFrame : Bytes :=
  str "\x7b\"type\": \"error\", \"channel\": \"orders\", \"market\": \"BTC-PERP\", \"code\": 400, \"msg\": \"Already subscribed\"\x7d"

/-- The envelope of `orderErrorFrame`. -/
def orderErrorEnvelope : callResponse :=
  { Channel := str "orders", Market := str "BTC-PERP", Typ := str "error",
    Code := 400, Msg := str "Already subscribed", Data := [] }

/-- A frame cut off in the middle: not a JSON object. -/
def truncatedFrame : Bytes :=
  str "\x7b\"type\": \"subscribed\", \"channel\": \"ord"

/-- Frames and the envelopes `json.Unmarshal` decodes them to. -/
def frames : List (Bytes × callResponse) :=
  [ (subscribedFrame, subscribedEnvelope),
    (errorFrame, errorEnvelope),
    (reconnectFrame, reconnectEnvelope),
    (infoFrame, infoEnvelope),
    (pongFrame, pongEnvelope),
    (pongFullFrame, pongFullEnvelope),
    (orderUpdateFrame, orderUpdateEnvelope),
    (orderPartialFrame, orderPartialEnvelope),
    (fillUpdateFrame, fillUpdateEnvelope),
    (fillUnknownFrame, fillUnknownEnvelope),
    (tradesFrame, tradesEnvelope),
    (upperFrame, upperEnvelope),
    (tradeTypeFrame, tradeTypeEnvelope),
    (abFrame, abEnvelope),
    (aFrame, aEnvelope),
    (orderErrorFrame, orderErrorEnvelope) ]

/-- Payloads and the values `json.Unmarshal` decodes them to. -/
def payloads : List (Bytes × Wire) :=
  [ (str "\x7b\"market\": \"BTC-PERP\", \"id\": 7\x7d", { market := str "BTC-PERP", id := 7 }),
    (str "\x7b\"market\": \"DOGE-PERP\", \"id\": 9\x7d", { market := str "DOGE-PERP", id := 9 }) ]

/-- Resolve the payload's market key; an unknown key is an error. -/
def build (w : Wire) (codeMap : Bytes → Option Bytes) : Except GoError Record :=
  match codeMap w.market with
  | some s => Except.ok { symbol := s, id := w.id }
  | none => Except.error (GoError.errorf (str "unkown symbol '" ++ w.market ++ str "'"))

/-- The table-driven parameters. -/
def env : Externs Wire Wire Record Record Bytes where
  unmarshalResponse raw :=
    match frames.lookup raw with
    | some cr => Except.ok cr
    | none => Except.error (str "invalid character")
  unmarshalOrder raw :=
    match payloads.lookup raw with
    | some w => Except.ok w
    | none => Except.error (GoError.json (str "invalid character"))
  unmarshalFill raw :=
    match payloads.lookup raw with
    | some w => Except.ok w
    | none => Except.error (GoError.json (str "invalid character"))
  parseOrderInternal := build
  parseFillInternal := build

/-- A codec that knows the single instrument `BTC-PERP`. -/
def codec : CodeC Bytes where
  codeMap key := if key = str "BTC-PERP" then some (str "btc-perp") else none

end Example

end ftx

/-! # The instrument model

A shallow embedding of `exchange/symbol.go`. A `decimal.Decimal` is its
coefficient and exponent (the number `value * 10 ^ exp`); an `interface{}` is
an `Option` over the dynamic values, `none` for `nil`; `time.Time` is a type
parameter. Struct embedding is `extends`. The method `Type` is `Typ`. -/

namespace exchange

open ftx (Bytes str)

/-- The struct `decimal.Decimal` of github.com/shopspring/decimal: the number
`value * 10 ^ exp`. -/
structure Decimal where
  value : Int
  exp : Int
  deriving DecidableEq, Repr

/-- The zero value `decimal.Decimal{}`, which the library reads as 0. -/
def Decimal.zero : Decimal := { value := 0, exp := 0 }

/-- The library call `decimal.NewFromFloat(1.0)`: the decimal 1. -/
def Decimal.NewFromFloatOne : Decimal := { value := 1, exp := 0 }

abbrev OptionType := Int

abbrev FutureType := Int

structure RawMixin (Raw : Type) where
  raw : Option Raw

/-- BaseSymbolProperty define common property of all kind symbol -/
structure BaseSymbolProperty where
  pricePrecision : Decimal
  amountPrecision : Decimal
  valuePrecision : Decimal
  amountMin : Decimal
  amountMax : Decimal
  valueMin : Decimal
  deriving DecidableEq, Repr

/-- SymbolConfig used to specific symbol property -/
structure SymbolConfig where
  PricePrecision : Decimal
  AmountPrecision : Decimal
  ValuePrecision : Decimal
  AmountMin : Decimal
  AmountMax : Decimal
  ValueMin : Decimal
  deriving DecidableEq, Repr

/-- BaseOptionSymbol define common property of option symbol -/
structure BaseOptionSymbol (Raw Time : Type) extends RawMixin Raw, BaseSymbolProperty where
  strike : Decimal
  index : Bytes
  settleTime : Time
  typ : OptionType

/-- BaseSpotSymbol define common property of spot symbol -/
structure BaseSpotSymbol (Raw : Type) extends RawMixin Raw, BaseSymbolProperty where
  base : Bytes
  quote : Bytes

structure BaseMarginSymbol (Raw : Type) extends BaseSpotSymbol Raw where
  lever : Decimal

/-- BaseFutureSymbol define common property of future symbol -/
structure BaseFutureSymbol (Raw Time : Type) extends RawMixin Raw, BaseSymbolProperty where
  index : Bytes
  settleTime : Time
  contractVal : Decimal
  typ : FutureType

structure BaseSwapSymbol (Raw : Type) extends RawMixin Raw, BaseSymbolProperty where
  index : Bytes
  contractVal : Decimal

def OptionTypeCall : Int := 0
def OptionTypePut : Int := 1
/-- FutureTypeCW current week settle future -/
def FutureTypeCW : Int := 2
/-- FutureTypeNW next week settle future -/
def FutureTypeNW : Int := 3
/-- FutureTypeCQ current quarter settle future -/
def FutureTypeCQ : Int := 4
/-- FutureTypeNQ next quarter settle future -/
def FutureTypeNQ : Int := 5
/-- FutureTypeNNQ next next quart settle future (deribit only) -/
def FutureTypeNNQ : Int := 6

/-- The Go zero value of `RawMixin`: a nil `raw`. -/
def RawMixin.zero {Raw : Type} : RawMixin Raw := { raw := none }

/-- The Go zero value of `BaseSymbolProperty`: every field the zero decimal. -/
def BaseSymbolProperty.zero : BaseSymbolProperty :=
  { pricePrecision := Decimal.zero, amountPrecision := Decimal.zero,
    valuePrecision := Decimal.zero, amountMin := Decimal.zero,
    amountMax := Decimal.zero, valueMin := Decimal.zero }

def RawMixin.Raw {Raw : Type} (r : RawMixin Raw) : Option Raw :=
  r.raw

def SymbolConfig.Property (p : SymbolConfig) : BaseSymbolProperty :=
  { amountMax := p.AmountMax
    amountMin := p.AmountMin
    valuePrecision := p.ValuePrecision
    pricePrecision := p.PricePrecision
    amountPrecision := p.AmountPrecision
    valueMin := p.ValueMin }

/-- AmountMin minium order amount -/
def BaseSymbolProperty.AmountMin (p : BaseSymbolProperty) : Decimal :=
  p.amountMin

/-- AmountMax minum order amount zero means no limit -/
def BaseSymbolProperty.AmountMax (p : BaseSymbolProperty) : Decimal :=
  p.amountMax

/-- PricePrecision return price precision value -/
def BaseSymbolProperty.PricePrecision (p : BaseSymbolProperty) : Decimal :=
  p.pricePrecision

/-- AmountPrecision return amount precision value -/
def BaseSymbolProperty.AmountPrecision (p : BaseSymbolProperty) : Decimal :=
  p.amountPrecision

def BaseSymbolProperty.ValuePrecision (p : BaseSymbolProperty) : Decimal :=
  p.valuePrecision

/-- ValueMin return minium amount * price value zero means no limit -/
def BaseSymbolProperty.ValueMin (p : BaseSymbolProperty) : Decimal :=
  p.valueMin

section Symbols

variable {Raw Time : Type}

def NewBaseOptionSymbol (index : Bytes) (st : Time) (strike : Decimal) (typ : OptionType)
    (prop : SymbolConfig) (raw : Option Raw) : BaseOptionSymbol Raw Time :=
  { toRawMixin := { raw := raw }
    toBaseSymbolProperty := prop.Property
    strike := strike
    index := index
    settleTime := st
    typ := typ }

def BaseOptionSymbol.Strike (bos : BaseOptionSymbol Raw Time) : Decimal :=
  bos.strike

def BaseOptionSymbol.Index (bos : BaseOptionSymbol Raw Time) : Bytes :=
  bos.index

def BaseOptionSymbol.SettleTime (bos : BaseOptionSymbol Raw Time) : Time :=
  bos.settleTime

def BaseOptionSymbol.Typ (bos : BaseOptionSymbol Raw Time) : OptionType :=
  bos.typ

/-- Method `OptionType.String`. -/
def OptionType.String (ot : OptionType) : Bytes :=
  if ot = OptionTypeCall then
    str "CALL"
  else if ot = OptionTypePut then
    str "PUT"
  else
    str "UNKOWN"

def NewBaseSpotSymbol (base quote : Bytes) (cfg : SymbolConfig) (raw : Option Raw) :
    BaseSpotSymbol Raw :=
  { toRawMixin := { raw := raw }
    toBaseSymbolProperty := cfg.Property
    base := base
    quote := quote }

def BaseSpotSymbol.Base (bss : BaseSpotSymbol Raw) : Bytes :=
  bss.base

def BaseSpotSymbol.Quote (bss : BaseSpotSymbol Raw) : Bytes :=
  bss.quote

def NewBaseMarginSymbol (base quote : Bytes) (cfg : SymbolConfig) (lever : Decimal)
    (raw : Option Raw) : BaseMarginSymbol Raw :=
  { toBaseSpotSymbol := NewBaseSpotSymbol base quote cfg raw
    lever := lever }

def BaseMarginSymbol.Lever (ms : BaseMarginSymbol Raw) : Decimal :=
  ms.lever

def NewBaseFuturesSymbolWithCfgCV (index : Bytes) (st : Time) (typ : FutureType)
    (cfg : SymbolConfig) (cv : Decimal) (raw : Option Raw) : BaseFutureSymbol Raw Time :=
  { toRawMixin := { raw := raw }
    toBaseSymbolProperty := cfg.Property
    index := index
    settleTime := st
    typ := typ
    contractVal := cv }

def NewBaseFuturesSymbolWithCfg (index : Bytes) (st : Time) (typ : FutureType)
    (cfg : SymbolConfig) (raw : Option Raw) : BaseFutureSymbol Raw Time :=
  { toRawMixin := { raw := raw }
    toBaseSymbolProperty := cfg.Property
    index := index
    settleTime := st
    typ := typ
    contractVal := Decimal.NewFromFloatOne }

def NewBaseFutureSymbol (index : Bytes) (st : Time) (typ : FutureType) :
    BaseFutureSymbol Raw Time :=
  { toRawMixin := RawMixin.zero
    toBaseSymbolProperty := BaseSymbolProperty.zero
    index := index
    settleTime := st
    typ := typ
    contractVal := Decimal.NewFromFloatOne }

def BaseFutureSymbol.Index (bfs : BaseFutureSymbol Raw Time) : Bytes :=
  bfs.index

def BaseFutureSymbol.SettleTime (bfs : BaseFutureSymbol Raw Time) : Time :=
  bfs.settleTime

def BaseFutureSymbol.Typ (bfs : BaseFutureSymbol Raw Time) : FutureType :=
  bfs.typ

def BaseFutureSymbol.ContractVal (bfs : BaseFutureSymbol Raw Time) : Decimal :=
  bfs.contractVal

def NewBaseSwapSymbolWithCfg (index : Bytes) (cf : Decimal) (cfg : SymbolConfig)
    (raw : Option Raw) : BaseSwapSymbol Raw :=
  { toRawMixin := { raw := raw }
    toBaseSymbolProperty := cfg.Property
    index := index
    contractVal := cf }

def NewBaseSwapSymbol (index : Bytes) : BaseSwapSymbol Raw :=
  { toRawMixin := RawMixin.zero
    toBaseSymbolProperty := BaseSymbolProperty.zero
    index := index
    contractVal := Decimal.NewFromFloatOne }

def BaseSwapSymbol.Index (bsw : BaseSwapSymbol Raw) : Bytes :=
  bsw.index

def BaseSwapSymbol.ContractVal (bsv : BaseSwapSymbol Raw) : Decimal :=
  bsv.contractVal

end Symbols

/-- What `Round` calls outside this repository, for a model `F` of `float64`:
the methods `Div`, `Float64` (its first result) and `Mul` and the constructor
`NewFromInt` of github.com/shopspring/decimal, and the Go conversion
`int64(f)`. `Div` yields `none` when the call panics. -/
structure DecimalOps (F : Type) where
  Div : Decimal → Decimal → Option Decimal
  Float64 : Decimal → F
  toInt64 : F → Int
  NewFromInt : Int → Decimal
  Mul : Decimal → Decimal → Decimal

/-- Function `Round`; `none` when the division panics. -/
def Round {F : Type} (ops : DecimalOps F) (val p : Decimal) : Option Decimal :=
  match ops.Div val p with
  | none => none
  | some quotient =>
    let times := ops.Float64 quotient
    some (ops.Mul (ops.NewFromInt (ops.toInt64 times)) p)

/-! ## The decimal library

`Round` is made of calls into github.com/shopspring/decimal and one Go
conversion. They are modelled here on exact integers: a decimal is
`value * 10 ^ exp`, a `float64` is either `mant * 2 ^ exp2` or an infinity. The
library keeps `exp` in an `int32`; here it is unbounded. -/

/-- The number a decimal stands for. -/
def Decimal.toRat (d : Decimal) : ℚ := d.value * (10 : ℚ) ^ d.exp

/-- The library's `DivisionPrecision`: the decimal places `Div` keeps. -/
def DivisionPrecision : Int := 16

/-- Method `DivRound` of the library: `d / d2` rounded to `precision` decimal
places, half away from zero; `none` is the panic on a zero divisor. `aa / bb`
is the quotient scaled by `10 ^ precision`, divided as `big.Int.QuoRem` does
(truncating), and the last digit is moved away from zero when twice the
remainder reaches the divisor. -/
def Decimal.DivRound (d d2 : Decimal) (precision : Int) : Option Decimal :=
  if d2.value = 0 then none
  else
    let e := d.exp - d2.exp + precision
    let aa := if e < 0 then d.value else d.value * 10 ^ e.toNat
    let bb := if e < 0 then d2.value * 10 ^ (-e).toNat else d2.value
    let q := Int.tdiv aa bb
    let r := Int.tmod aa bb
    if 2 * r.natAbs < bb.natAbs then some { value := q, exp := -precision }
    else if d.value.sign * d2.value.sign < 0 then some { value := q - 1, exp := -precision }
    else some { value := q + 1, exp := -precision }

/-- Method `Div` of the library: `DivRound` at `DivisionPrecision`. -/
def Decimal.Div (d d2 : Decimal) : Option Decimal :=
  d.DivRound d2 DivisionPrecision

/-- Constructor `decimal.NewFromInt`. -/
def Decimal.NewFromInt (v : Int) : Decimal := { value := v, exp := 0 }

/-- Method `Mul` of the library. -/
def Decimal.Mul (d d2 : Decimal) : Decimal :=
  { value := d.value * d2.value, exp := d.exp + d2.exp }

/-- A `float64` that is not a NaN: the number `mant * 2 ^ exp2`, or an infinity. -/
inductive Float64 where
  | finite (mant : Int) (exp2 : Int)
  | inf (negative : Bool)
  deriving DecidableEq, Repr

/-- The integer nearest to `n / d`, a tie going to the even one. -/
def roundHalfEven (n d : Nat) : Nat :=
  let q := n / d
  let r := n % d
  if 2 * r < d then q
  else if d < 2 * r then q + 1
  else if q % 2 = 0 then q else q + 1

/-- The position of the highest set bit, by halving at most `fuel` times. -/
def floorLog2Aux : Nat → Nat → Nat
  | 0, _ => 0
  | fuel + 1, n => if 2 ≤ n then floorLog2Aux fuel (n / 2) + 1 else 0

/-- The position of the highest set bit of `n`: the largest `k` with `2 ^ k ≤ n`. -/
def floorLog2 (n : Nat) : Nat := floorLog2Aux n n

/-- The binary exponent of the positive rational `n / d`: the `e` with
`2 ^ e ≤ n / d < 2 ^ (e + 1)`. -/
def binaryExponent (n d : Nat) : Int :=
  let e0 : Int := (floorLog2 n : Int) - (floorLog2 d : Int)
  if (if 0 ≤ e0 then d * 2 ^ e0.toNat ≤ n else d ≤ n * 2 ^ (-e0).toNat) then e0 else e0 - 1

/-- The `float64` nearest to `num / den`, as `big.Rat.Float64` returns it: 53
significant bits, ties to even, at most 1074 fractional bits (subnormals), an
infinity from `2 ^ 1024` on. -/
def Float64.ofRat (num : Int) (den : Nat) : Float64 :=
  if num = 0 then Float64.finite 0 0
  else
    let n := num.natAbs
    let s : Int := min (52 - binaryExponent n den) 1074
    let m := if 0 ≤ s then roundHalfEven (n * 2 ^ s.toNat) den
      else roundHalfEven n (den * 2 ^ (-s).toNat)
    if 971 < -s ∨ (-s = 971 ∧ 2 ^ 53 ≤ m) then Float64.inf (decide (num < 0))
    else Float64.finite (num.sign * m) (-s)

/-- Method `Float64` of the library, its first result: `d.Rat().Float64()`. -/
def Decimal.Float64 (d : Decimal) : Float64 :=
  if d.exp ≤ 0 then Float64.ofRat d.value (10 ^ (-d.exp).toNat)
  else Float64.ofRat (d.value * 10 ^ d.exp.toNat) 1

/-- The Go conversion `int64(f)`: the fraction is cut off; a value outside the
`int64` range, for which Go leaves the result to the implementation, gives
`-2 ^ 63` as on amd64. -/
def toInt64 : Float64 → Int
  | Float64.finite m x =>
    let t := if 0 ≤ x then m * 2 ^ x.toNat else Int.tdiv m (2 ^ (-x).toNat)
    if -2 ^ 63 ≤ t ∧ t < 2 ^ 63 then t else -2 ^ 63
  | Float64.inf _ => -2 ^ 63

/-- The calls of `Round` as the library and Go perform them. -/
def shopspring : DecimalOps Float64 where
  Div := Decimal.Div
  Float64 := Decimal.Float64
  toInt64 := toInt64
  NewFromInt := Decimal.NewFromInt
  Mul := Decimal.Mul

end exchange

namespace ftx

/-! ## Properties of `Decode` -/

section Properties

variable {WireOrder FillNotify Order Fill Symbol : Type}

theorem typeSubscribed_ne_typeError : typeSubscribed ≠ typeError := by decide

theorem typeUnSubscribed_ne_typeError : typeUnSubscribed ≠ typeError := by decide

/-- C1: a frame whose envelope parses with type "subscribed" or "unsubscribed"
decodes, without error, to a Result whose ID is channel ++ market, whose Error
is nil and whose payload is the raw frame. -/
theorem decode_subscribed_result (env : Externs WireOrder FillNotify Order Fill Symbol)
    (cc : CodeC Symbol) (raw : Bytes) (cr : callResponse)
    (hparse : env.unmarshalResponse raw = Except.ok cr)
    (htype : cr.Typ = typeSubscribed ∨ cr.Typ = typeUnSubscribed) :
    CodeC.Decode env cc raw =
      (some (Response.result { ID := cr.Channel ++ cr.Market, Error := none, Result := raw }),
        none) := by
  have hne : cr.Typ ≠ typeError := by
    rcases htype with h | h <;> rw [h]
    · exact typeSubscribed_ne_typeError
    · exact typeUnSubscribed_ne_typeError
  simp only [CodeC.Decode, hparse]
  rw [if_neg hne, if_pos htype]

theorem decode_subscribed_result_witness :
    Example.env.unmarshalResponse Example.subscribedFrame =
        Except.ok Example.subscribedEnvelope ∧
      CodeC.Decode Example.env Example.codec Example.subscribedFrame =
        (some (Response.result
          { ID := str "orders" ++ str "BTC-PERP", Error := none,
            Result := Example.subscribedFrame }), none) :=
  ⟨by rfl, decode_subscribed_result Example.env Example.codec Example.subscribedFrame
    Example.subscribedEnvelope (by rfl) (by decide)⟩

/-- C2: a frame whose envelope parses with type "error" decodes, whatever its
code and msg, to a nil Go error and a Result with ID channel ++ market, the
raw frame as payload, and an Error that is not a StreamError and whose text
contains the envelope's msg and its code. -/
theorem decode_error_result (env : Externs WireOrder FillNotify Order Fill Symbol)
    (cc : CodeC Symbol) (raw : Bytes) (cr : callResponse)
    (hparse : env.unmarshalResponse raw = Except.ok cr)
    (htype : cr.Typ = typeError) :
    ∃ text : Bytes,
      CodeC.Decode env cc raw =
        (some (Response.result
          { ID := cr.Channel ++ cr.Market, Error := some (GoError.errorf text), Result := raw }),
          none) ∧
      (GoError.errorf text).isStreamError = false ∧
      cr.Msg <:+: text ∧ formatInt cr.Code <:+: text := by
  refine ⟨str "error msg: " ++ cr.Msg ++ str " code: " ++ formatInt cr.Code, ?_, rfl, ?_, ?_⟩
  · simp only [CodeC.Decode, hparse]
    rw [if_pos htype]
  · exact ⟨str "error msg: ", str " code: " ++ formatInt cr.Code, by simp [List.append_assoc]⟩
  · exact ⟨str "error msg: " ++ cr.Msg ++ str " code: ", [], by simp [List.append_assoc]⟩

theorem decode_error_result_witness :
    Example.env.unmarshalResponse Example.errorFrame = Except.ok Example.errorEnvelope ∧
      Example.errorEnvelope.Code = codeReconnet ∧
      ∃ text : Bytes,
        CodeC.Decode Example.env Example.codec Example.errorFrame =
          (some (Response.result
            { ID := [], Error := some (GoError.errorf text), Result := Example.errorFrame }),
            none) ∧
        (GoError.errorf text).isStreamError = false ∧
        str "Already logged in" <:+: text ∧ str "20001" <:+: text :=
  ⟨by rfl, by decide, decode_error_result Example.env Example.codec Example.errorFrame
    Example.errorEnvelope (by rfl) (by decide)⟩

theorem typeInfo_ne_typeError : typeInfo ≠ typeError := by decide

theorem typeInfo_not_subscribed : ¬ (typeInfo = typeSubscribed ∨ typeInfo = typeUnSubscribed) := by
  decide

theorem typeInfo_ne_typePong : typeInfo ≠ typePong := by decide

/-- The value `Decode` returns on the reconnect request. -/
theorem decode_reconnect_value (env : Externs WireOrder FillNotify Order Fill Symbol)
    (cc : CodeC Symbol) (raw : Bytes) (cr : callResponse)
    (hparse : env.unmarshalResponse raw = Except.ok cr)
    (htype : cr.Typ = typeInfo) (hcode : cr.Code = 20001) :
    CodeC.Decode env cc raw =
      (none, some (NewStreamError (GoError.errorf (str "ftx ws reset info " ++ raw)))) := by
  simp only [CodeC.Decode, hparse, htype]
  rw [if_neg typeInfo_ne_typeError, if_neg typeInfo_not_subscribed, if_neg typeInfo_ne_typePong,
    if_pos trivial, if_pos (by rw [hcode]; rfl)]

/-- C3: a frame whose envelope parses with type "info" and the reconnect code
20001 decodes to a nil response and an error that is a StreamError. -/
theorem decode_info_reconnect_stream (env : Externs WireOrder FillNotify Order Fill Symbol)
    (cc : CodeC Symbol) (raw : Bytes) (cr : callResponse)
    (hparse : env.unmarshalResponse raw = Except.ok cr)
    (htype : cr.Typ = typeInfo) (hcode : cr.Code = 20001) :
    ∃ e : GoError, CodeC.Decode env cc raw = (none, some e) ∧ e.isStreamError = true :=
  ⟨NewStreamError (GoError.errorf (str "ftx ws reset info " ++ raw)),
    decode_reconnect_value env cc raw cr hparse htype hcode, rfl⟩

theorem decode_info_reconnect_stream_witness :
    Example.env.unmarshalResponse Example.reconnectFrame = Except.ok Example.reconnectEnvelope ∧
      ∃ e : GoError,
        CodeC.Decode Example.env Example.codec Example.reconnectFrame = (none, some e) ∧
        e.isStreamError = true :=
  ⟨by rfl, decode_info_reconnect_stream Example.env Example.codec Example.reconnectFrame
    Example.reconnectEnvelope (by rfl) (by decide) (by decide)⟩

/-- C4: a frame whose envelope parses with type "info" and a code other than
20001 decodes, without error, to a Notify whose Method is channel ++ market and
whose Params is the envelope's raw data. -/
theorem decode_info_notify (env : Externs WireOrder FillNotify Order Fill Symbol)
    (cc : CodeC Symbol) (raw : Bytes) (cr : callResponse)
    (hparse : env.unmarshalResponse raw = Except.ok cr)
    (htype : cr.Typ = typeInfo) (hcode : cr.Code ≠ 20001) :
    CodeC.Decode env cc raw =
      (some (Response.notify
        { Method := cr.Channel ++ cr.Market, Params := Params.raw cr.Data }), none) := by
  simp only [CodeC.Decode, hparse, htype]
  rw [if_neg typeInfo_ne_typeError, if_neg typeInfo_not_subscribed, if_neg typeInfo_ne_typePong,
    if_pos trivial, if_neg (by simpa [codeReconnet] using hcode)]

theorem decode_info_notify_witness :
    Example.env.unmarshalResponse Example.infoFrame = Except.ok Example.infoEnvelope ∧
      CodeC.Decode Example.env Example.codec Example.infoFrame =
        (some (Response.notify { Method := str "fills" ++ [], Params := Params.raw (str "[1]") }),
          none) :=
  ⟨by rfl, decode_info_notify Example.env Example.codec Example.infoFrame
    Example.infoEnvelope (by rfl) (by decide) (by decide)⟩

theorem typePong_ne_typeError : typePong ≠ typeError := by decide

theorem typePong_not_subscribed : ¬ (typePong = typeSubscribed ∨ typePong = typeUnSubscribed) := by
  decide

/-- C5: a frame whose envelope parses with type "pong" decodes, without error,
to the Notify with Method "pong" and nil Params; hence two pong frames decode
to equal values whatever their channel, market, code, msg and data. -/
theorem decode_pong_notify (env : Externs WireOrder FillNotify Order Fill Symbol)
    (cc : CodeC Symbol) (raw raw' : Bytes) (cr cr' : callResponse)
    (hparse : env.unmarshalResponse raw = Except.ok cr)
    (htype : cr.Typ = typePong)
    (hparse' : env.unmarshalResponse raw' = Except.ok cr')
    (htype' : cr'.Typ = typePong) :
    CodeC.Decode env cc raw =
        (some (Response.notify { Method := str "pong", Params := Params.none }), none) ∧
      CodeC.Decode env cc raw' = CodeC.Decode env cc raw := by
  have key : ∀ (r : Bytes) (c : callResponse), env.unmarshalResponse r = Except.ok c →
      c.Typ = typePong → CodeC.Decode env cc r =
        (some (Response.notify { Method := str "pong", Params := Params.none }), none) := by
    intro r c hr hc
    simp only [CodeC.Decode, hr, hc]
    rw [if_neg typePong_ne_typeError, if_neg typePong_not_subscribed, if_pos trivial]
    rfl
  exact ⟨key raw cr hparse htype, by rw [key raw cr hparse htype, key raw' cr' hparse' htype']⟩

theorem decode_pong_notify_witness :
    Example.pongEnvelope ≠ Example.pongFullEnvelope ∧
      CodeC.Decode Example.env Example.codec Example.pongFrame =
        (some (Response.notify { Method := str "pong", Params := Params.none }), none) ∧
      CodeC.Decode Example.env Example.codec Example.pongFullFrame =
        CodeC.Decode Example.env Example.codec Example.pongFrame :=
  ⟨by decide, decode_pong_notify Example.env Example.codec Example.pongFrame
    Example.pongFullFrame Example.pongEnvelope Example.pongFullEnvelope
    (by rfl) (by decide) (by rfl) (by decide)⟩

/-- What `Decode` returns once the envelope has parsed, case by case. -/
theorem decode_error_cases (env : Externs WireOrder FillNotify Order Fill Symbol)
    (cc : CodeC Symbol) (raw : Bytes) (cr : callResponse)
    (hparse : env.unmarshalResponse raw = Except.ok cr) (e : GoError)
    (he : (CodeC.Decode env cc raw).2 = some e) :
    (cr.Typ = typeInfo ∧ cr.Code = codeReconnet ∧ e.isStreamError = true) ∨
    (¬ (cr.Typ = typeInfo ∧ cr.Code = codeReconnet) ∧
      (CodeC.parseOrder env cc cr.Data = Except.error e ∨
        CodeC.parseFills env cc cr.Data = Except.error e ∨
        ∃ text, e = GoError.errorf text)) := by
  simp only [CodeC.Decode, hparse] at he
  by_cases h1 : cr.Typ = typeError
  · rw [if_pos h1] at he; simp at he
  rw [if_neg h1] at he
  by_cases h2 : cr.Typ = typeSubscribed ∨ cr.Typ = typeUnSubscribed
  · rw [if_pos h2] at he; simp at he
  rw [if_neg h2] at he
  by_cases h3 : cr.Typ = typePong
  · rw [if_pos h3] at he; simp at he
  rw [if_neg h3] at he
  by_cases h4 : cr.Typ = typeInfo
  · rw [if_pos h4] at he
    by_cases h5 : cr.Code = codeReconnet
    · rw [if_pos h5] at he
      refine Or.inl ⟨h4, h5, ?_⟩
      have he' : NewStreamError (GoError.errorf (str "ftx ws reset info " ++ raw)) = e := by
        simpa using he
      rw [← he']; rfl
    · rw [if_neg h5] at he; simp at he
  rw [if_neg h4] at he
  refine Or.inr ⟨fun h => h4 h.1, ?_⟩
  by_cases h6 : cr.Typ = typePartial ∨ cr.Typ = typeUpdate
  · rw [if_pos h6] at he
    by_cases h7 : cr.Channel = channelOrders
    · rw [if_pos h7] at he
      cases hp : CodeC.parseOrder env cc cr.Data with
      | error err =>
        rw [hp] at he
        have he' : err = e := by simpa using he
        exact Or.inl (by rw [he'])
      | ok o => rw [hp] at he; simp at he
    rw [if_neg h7] at he
    by_cases h8 : cr.Channel = channelFills
    · rw [if_pos h8] at he
      cases hp : CodeC.parseFills env cc cr.Data with
      | error err =>
        rw [hp] at he
        have he' : err = e := by simpa using he
        exact Or.inr (Or.inl (by rw [he']))
      | ok f => rw [hp] at he; simp at he
    rw [if_neg h8] at he
    exact Or.inr (Or.inr ⟨_, (Option.some.inj he).symm⟩)
  · rw [if_neg h6] at he
    exact Or.inr (Or.inr ⟨_, (Option.some.inj he).symm⟩)

/-- C6: when the order and fill parsers never return a StreamError, `Decode`
returns a StreamError exactly when the envelope parses with type "info" and
code 20001; every other error it returns is not a StreamError. -/
theorem decode_stream_error_iff (env : Externs WireOrder FillNotify Order Fill Symbol)
    (cc : CodeC Symbol) (raw : Bytes)
    (horder : ∀ data e, CodeC.parseOrder env cc data = Except.error e → e.isStreamError = false)
    (hfills : ∀ data e, CodeC.parseFills env cc data = Except.error e → e.isStreamError = false) :
    ((∃ e, (CodeC.Decode env cc raw).2 = some e ∧ e.isStreamError = true) ↔
      ∃ cr, env.unmarshalResponse raw = Except.ok cr ∧ cr.Typ = typeInfo ∧ cr.Code = 20001) ∧
    (∀ e, (CodeC.Decode env cc raw).2 = some e →
      (¬ ∃ cr, env.unmarshalResponse raw = Except.ok cr ∧ cr.Typ = typeInfo ∧ cr.Code = 20001) →
      e.isStreamError = false) := by
  have fwd : ∀ e, (CodeC.Decode env cc raw).2 = some e → e.isStreamError = true →
      ∃ cr, env.unmarshalResponse raw = Except.ok cr ∧ cr.Typ = typeInfo ∧ cr.Code = 20001 := by
    intro e he hs
    cases hu : env.unmarshalResponse raw with
    | error err =>
      simp only [CodeC.Decode, hu] at he
      simp at he
      rw [← he] at hs
      simp [GoError.isStreamError] at hs
    | ok cr =>
      rcases decode_error_cases env cc raw cr hu e he with h | ⟨_, h | h | ⟨text, h⟩⟩
      · exact ⟨cr, rfl, h.1, h.2.1⟩
      · rw [horder _ _ h] at hs; cases hs
      · rw [hfills _ _ h] at hs; cases hs
      · rw [h] at hs; simp [GoError.isStreamError] at hs
  refine ⟨⟨fun ⟨e, he, hs⟩ => fwd e he hs, ?_⟩, ?_⟩
  · rintro ⟨cr, hu, htype, hcode⟩
    exact ⟨NewStreamError (GoError.errorf (str "ftx ws reset info " ++ raw)),
      by rw [decode_reconnect_value env cc raw cr hu htype hcode], rfl⟩
  · intro e he hno
    cases hs : e.isStreamError with
    | false => rfl
    | true => exact absurd (fwd e he hs) hno

theorem Example.build_not_stream (w : Example.Wire) (codeMap : Bytes → Option Bytes)
    (e : GoError) (h : Example.build w codeMap = Except.error e) : e.isStreamError = false := by
  unfold Example.build at h
  cases hc : codeMap w.market with
  | none =>
    rw [hc] at h
    injection h with h
    rw [← h]; rfl
  | some s => rw [hc] at h; cases h

theorem Example.parseOrder_not_stream (data : Bytes) (e : GoError)
    (h : CodeC.parseOrder Example.env Example.codec data = Except.error e) :
    e.isStreamError = false := by
  simp only [CodeC.parseOrder, Example.env] at h
  cases hl : Example.payloads.lookup data with
  | none =>
    rw [hl] at h
    injection h with h
    rw [← h]; rfl
  | some w =>
    rw [hl] at h
    exact Example.build_not_stream w _ e h

theorem Example.parseFills_not_stream (data : Bytes) (e : GoError)
    (h : CodeC.parseFills Example.env Example.codec data = Except.error e) :
    e.isStreamError = false := by
  simp only [CodeC.parseFills, Example.env] at h
  cases hl : Example.payloads.lookup data with
  | none =>
    rw [hl] at h
    injection h with h
    rw [← h]; rfl
  | some w =>
    rw [hl] at h
    exact Example.build_not_stream w _ e h

theorem decode_stream_error_iff_witness :
    (∃ e, (CodeC.Decode Example.env Example.codec Example.reconnectFrame).2 = some e ∧
        e.isStreamError = true) ∧
      (∀ e, (CodeC.Decode Example.env Example.codec Example.fillUnknownFrame).2 = some e →
        e.isStreamError = false) :=
  ⟨(decode_stream_error_iff Example.env Example.codec Example.reconnectFrame
      Example.parseOrder_not_stream Example.parseFills_not_stream).1.2
      ⟨Example.reconnectEnvelope, by rfl, by decide, by decide⟩,
    fun e he =>
      (decode_stream_error_iff Example.env Example.codec Example.fillUnknownFrame
        Example.parseOrder_not_stream Example.parseFills_not_stream).2 e he
        (by
          rintro ⟨cr, hu, htype, -⟩
          have hcr : Example.fillUnknownEnvelope = cr :=
            Except.ok.inj ((show Example.env.unmarshalResponse Example.fillUnknownFrame =
              Except.ok Example.fillUnknownEnvelope from by rfl).symm.trans hu)
          rw [← hcr] at htype
          exact absurd htype (by decide))⟩

theorem typePartial_ne_typeError : typePartial ≠ typeError := by decide

theorem typeUpdate_ne_typeError : typeUpdate ≠ typeError := by decide

theorem typePartial_not_subscribed :
    ¬ (typePartial = typeSubscribed ∨ typePartial = typeUnSubscribed) := by decide

theorem typeUpdate_not_subscribed :
    ¬ (typeUpdate = typeSubscribed ∨ typeUpdate = typeUnSubscribed) := by decide

theorem typePartial_ne_typePong : typePartial ≠ typePong := by decide

theorem typeUpdate_ne_typePong : typeUpdate ≠ typePong := by decide

theorem typePartial_ne_typeInfo : typePartial ≠ typeInfo := by decide

theorem typeUpdate_ne_typeInfo : typeUpdate ≠ typeInfo := by decide

theorem channelFills_ne_channelOrders : channelFills ≠ channelOrders := by decide

/-- On a "partial" or "update" envelope `Decode` is the channel dispatch alone. -/
theorem decode_data_branch (env : Externs WireOrder FillNotify Order Fill Symbol)
    (cc : CodeC Symbol) (raw : Bytes) (cr : callResponse)
    (hparse : env.unmarshalResponse raw = Except.ok cr)
    (htype : cr.Typ = typePartial ∨ cr.Typ = typeUpdate) :
    CodeC.Decode env cc raw =
      if cr.Channel = channelOrders then
        match CodeC.parseOrder env cc cr.Data with
        | Except.error err => (none, some err)
        | Except.ok o =>
          (some (Response.notify
            { Method := cr.Channel ++ cr.Market, Params := Params.order o }), none)
      else if cr.Channel = channelFills then
        match CodeC.parseFills env cc cr.Data with
        | Except.error err => (none, some err)
        | Except.ok f =>
          (some (Response.notify
            { Method := cr.Channel ++ cr.Market, Params := Params.fill f }), none)
      else
        (none, some (GoError.errorf (str "unsupport channel '" ++ cr.Channel ++ str "'"))) := by
  have h1 : cr.Typ ≠ typeError := by
    rcases htype with h | h <;> rw [h]
    · exact typePartial_ne_typeError
    · exact typeUpdate_ne_typeError
  have h2 : ¬ (cr.Typ = typeSubscribed ∨ cr.Typ = typeUnSubscribed) := by
    rcases htype with h | h <;> rw [h]
    · exact typePartial_not_subscribed
    · exact typeUpdate_not_subscribed
  have h3 : cr.Typ ≠ typePong := by
    rcases htype with h | h <;> rw [h]
    · exact typePartial_ne_typePong
    · exact typeUpdate_ne_typePong
  have h4 : cr.Typ ≠ typeInfo := by
    rcases htype with h | h <;> rw [h]
    · exact typePartial_ne_typeInfo
    · exact typeUpdate_ne_typeInfo
  simp only [CodeC.Decode, hparse]
  rw [if_neg h1, if_neg h2, if_neg h3, if_neg h4, if_pos htype]

/-- C7: on a "partial" or "update" envelope with channel "orders" (resp.
"fills") whose order (resp. fill) parser succeeds with record r, `Decode`
returns, without error, the Notify with Method channel ++ market and Params r;
a second such envelope with the same channel, market and data decodes to the
same value, whichever of the two types each carries. -/
theorem decode_update_notify (env : Externs WireOrder FillNotify Order Fill Symbol)
    (cc : CodeC Symbol) (raw : Bytes) (cr : callResponse)
    (hparse : env.unmarshalResponse raw = Except.ok cr)
    (htype : cr.Typ = typePartial ∨ cr.Typ = typeUpdate) :
    (cr.Channel = channelOrders → ∀ o, CodeC.parseOrder env cc cr.Data = Except.ok o →
      CodeC.Decode env cc raw =
        (some (Response.notify
          { Method := cr.Channel ++ cr.Market, Params := Params.order o }), none)) ∧
    (cr.Channel = channelFills → ∀ f, CodeC.parseFills env cc cr.Data = Except.ok f →
      CodeC.Decode env cc raw =
        (some (Response.notify
          { Method := cr.Channel ++ cr.Market, Params := Params.fill f }), none)) ∧
    (∀ raw' cr', env.unmarshalResponse raw' = Except.ok cr' →
      (cr'.Typ = typePartial ∨ cr'.Typ = typeUpdate) →
      cr'.Channel = cr.Channel → cr'.Market = cr.Market → cr'.Data = cr.Data →
      CodeC.Decode env cc raw' = CodeC.Decode env cc raw) := by
  refine ⟨?_, ?_, ?_⟩
  · intro hch o ho
    rw [decode_data_branch env cc raw cr hparse htype, if_pos hch, ho]
  · intro hch f hf
    have hno : cr.Channel ≠ channelOrders := by rw [hch]; exact channelFills_ne_channelOrders
    rw [decode_data_branch env cc raw cr hparse htype, if_neg hno, if_pos hch, hf]
  · intro raw' cr' hparse' htype' hch hmk hdata
    rw [decode_data_branch env cc raw cr hparse htype,
      decode_data_branch env cc raw' cr' hparse' htype', hch, hmk, hdata]

theorem decode_update_notify_witness :
    CodeC.Decode Example.env Example.codec Example.orderUpdateFrame =
        (some (Response.notify
          { Method := str "orders" ++ [],
            Params := Params.order { symbol := str "btc-perp", id := 7 } }), none) ∧
      CodeC.Decode Example.env Example.codec Example.orderPartialFrame =
        CodeC.Decode Example.env Example.codec Example.orderUpdateFrame ∧
      CodeC.Decode Example.env Example.codec Example.fillUpdateFrame =
        (some (Response.notify
          { Method := str "fills" ++ [],
            Params := Params.fill { symbol := str "btc-perp", id := 7 } }), none) :=
  ⟨(decode_update_notify Example.env Example.codec Example.orderUpdateFrame
      Example.orderUpdateEnvelope (by rfl) (by decide)).1 (by decide) _ (by rfl),
    (decode_update_notify Example.env Example.codec Example.orderUpdateFrame
      Example.orderUpdateEnvelope (by rfl) (by decide)).2.2 Example.orderPartialFrame
      Example.orderPartialEnvelope (by rfl) (by decide) (by decide) (by decide) (by decide),
    (decode_update_notify Example.env Example.codec Example.fillUpdateFrame
      Example.fillUpdateEnvelope (by rfl) (by decide)).2.1 (by decide) _ (by rfl)⟩

/-- C8: on a "partial" or "update" envelope with channel "orders" or "fills"
whose payload parser fails, `Decode` returns a nil response and the parser's
error; for fills this covers both a payload that does not unmarshal and a
record builder that fails on the codec's codeMap. -/
theorem decode_parser_failure (env : Externs WireOrder FillNotify Order Fill Symbol)
    (cc : CodeC Symbol) (raw : Bytes) (cr : callResponse)
    (hparse : env.unmarshalResponse raw = Except.ok cr)
    (htype : cr.Typ = typePartial ∨ cr.Typ = typeUpdate) :
    (cr.Channel = channelOrders → ∀ e, CodeC.parseOrder env cc cr.Data = Except.error e →
      CodeC.Decode env cc raw = (none, some e)) ∧
    (cr.Channel = channelFills → ∀ e, CodeC.parseFills env cc cr.Data = Except.error e →
      CodeC.Decode env cc raw = (none, some e)) ∧
    (cr.Channel = channelFills → ∀ e, env.unmarshalFill cr.Data = Except.error e →
      CodeC.Decode env cc raw = (none, some e)) ∧
    (cr.Channel = channelFills → ∀ fill e, env.unmarshalFill cr.Data = Except.ok fill →
      env.parseFillInternal fill cc.codeMap = Except.error e →
      CodeC.Decode env cc raw = (none, some e)) := by
  have hfills : cr.Channel = channelFills → ∀ e,
      CodeC.parseFills env cc cr.Data = Except.error e →
      CodeC.Decode env cc raw = (none, some e) := by
    intro hch e he
    have hno : cr.Channel ≠ channelOrders := by rw [hch]; exact channelFills_ne_channelOrders
    rw [decode_data_branch env cc raw cr hparse htype, if_neg hno, if_pos hch, he]
  refine ⟨?_, hfills, ?_, ?_⟩
  · intro hch e he
    rw [decode_data_branch env cc raw cr hparse htype, if_pos hch, he]
  · intro hch e he
    exact hfills hch e (by simp only [CodeC.parseFills, he])
  · intro hch fill e hu he
    exact hfills hch e (by simp only [CodeC.parseFills, hu, he])

theorem decode_parser_failure_witness :
    Example.codec.codeMap (str "DOGE-PERP") = none ∧
      CodeC.Decode Example.env Example.codec Example.fillUnknownFrame =
        (none, some (GoError.errorf (str "unkown symbol '" ++ str "DOGE-PERP" ++ str "'"))) :=
  ⟨by decide,
    (decode_parser_failure Example.env Example.codec Example.fillUnknownFrame
      Example.fillUnknownEnvelope (by rfl) (by decide)).2.2.2 (by decide)
      { market := str "DOGE-PERP", id := 9 } _ (by rfl) (by rfl)⟩

/-- C9: when the envelope parses and its type is none of "error", "subscribed",
"unsubscribed", "pong", "info", "partial", "update", `Decode` returns a nil
response and an error, not a StreamError, whose text contains the type; when
the type is "partial" or "update" and the channel is neither "orders" nor
"fills", it returns a nil response and an error, not a StreamError, whose text
contains the channel. -/
theorem decode_unsupported (env : Externs WireOrder FillNotify Order Fill Symbol)
    (cc : CodeC Symbol) (raw : Bytes) (cr : callResponse)
    (hparse : env.unmarshalResponse raw = Except.ok cr) :
    (cr.Typ ∉ [typeError, typeSubscribed, typeUnSubscribed, typePong, typeInfo,
        typePartial, typeUpdate] →
      ∃ text, CodeC.Decode env cc raw = (none, some (GoError.errorf text)) ∧
        (GoError.errorf text).isStreamError = false ∧ cr.Typ <:+: text) ∧
    ((cr.Typ = typePartial ∨ cr.Typ = typeUpdate) →
      cr.Channel ≠ channelOrders → cr.Channel ≠ channelFills →
      ∃ text, CodeC.Decode env cc raw = (none, some (GoError.errorf text)) ∧
        (GoError.errorf text).isStreamError = false ∧ cr.Channel <:+: text) := by
  constructor
  · intro hnot
    simp only [List.mem_cons, List.mem_singleton, List.not_mem_nil, or_false, not_or] at hnot
    obtain ⟨h1, h2, h3, h4, h5, h6, h7⟩ := hnot
    refine ⟨str "unsupport type '" ++ cr.Typ ++ str "'", ?_, rfl,
      ⟨str "unsupport type '", str "'", rfl⟩⟩
    simp only [CodeC.Decode, hparse]
    rw [if_neg h1, if_neg (not_or.mpr ⟨h2, h3⟩), if_neg h4, if_neg h5,
      if_neg (not_or.mpr ⟨h6, h7⟩)]
  · intro htype ho hf
    refine ⟨str "unsupport channel '" ++ cr.Channel ++ str "'", ?_, rfl,
      ⟨str "unsupport channel '", str "'", rfl⟩⟩
    rw [decode_data_branch env cc raw cr hparse htype, if_neg ho, if_neg hf]

theorem decode_unsupported_witness :
    (∃ text, CodeC.Decode Example.env Example.codec Example.upperFrame =
        (none, some (GoError.errorf text)) ∧
        (GoError.errorf text).isStreamError = false ∧ str "ERROR" <:+: text) ∧
      (∃ text, CodeC.Decode Example.env Example.codec Example.tradesFrame =
        (none, some (GoError.errorf text)) ∧
        (GoError.errorf text).isStreamError = false ∧ str "trades" <:+: text) :=
  ⟨(decode_unsupported Example.env Example.codec Example.upperFrame
      Example.upperEnvelope (by rfl)).1 (by decide),
    (decode_unsupported Example.env Example.codec Example.tradesFrame
      Example.tradesEnvelope (by rfl)).2 (by decide) (by decide) (by decide)⟩

/-- C10: for a subscribe request `callParam{Channel: c, Market: m, OP: "subscribe"}`,
a frame whose envelope parses with type "subscribed" and the request's channel
and market decodes to a Result whose ID is c ++ m; for c = "orders" and
m = "BTC-PERP" the ID is "ordersBTC-PERP". -/
theorem subscribe_round_trip (env : Externs WireOrder FillNotify Order Fill Symbol)
    (cc : CodeC Symbol) (c m : Bytes) (req : callParam)
    (hreq : req = { Channel := c, Market := m, OP := str "subscribe" })
    (raw : Bytes) (cr : callResponse)
    (hparse : env.unmarshalResponse raw = Except.ok cr)
    (htype : cr.Typ = typeSubscribed)
    (hchannel : cr.Channel = req.Channel) (hmarket : cr.Market = req.Market) :
    ∃ r : Result, CodeC.Decode env cc raw = (some (Response.result r), none) ∧
      r.ID = c ++ m ∧
      (c = str "orders" → m = str "BTC-PERP" → r.ID = str "ordersBTC-PERP") := by
  subst hreq
  simp only at hchannel hmarket
  refine ⟨{ ID := c ++ m, Error := none, Result := raw }, ?_, rfl, ?_⟩
  · simp only [CodeC.Decode, hparse]
    rw [if_neg (by rw [htype]; exact typeSubscribed_ne_typeError), if_pos (Or.inl htype),
      hchannel, hmarket]
  · intro hc hm
    rw [hc, hm]
    show str "orders" ++ str "BTC-PERP" = str "ordersBTC-PERP"
    decide

theorem subscribe_round_trip_witness :
    ∃ r : Result,
      CodeC.Decode Example.env Example.codec Example.subscribedFrame =
        (some (Response.result r), none) ∧
      r.ID = str "ordersBTC-PERP" :=
  let ⟨r, hdecode, _, hid⟩ :=
    subscribe_round_trip Example.env Example.codec (str "orders") (str "BTC-PERP")
      { Channel := str "orders", Market := str "BTC-PERP", OP := str "subscribe" } rfl
      Example.subscribedFrame Example.subscribedEnvelope (by rfl) (by decide) (by decide)
      (by decide)
  ⟨r, hdecode, hid rfl rfl⟩

/-- C11: when the envelope parse fails, `Decode` returns a nil response and the
parse error itself, which is not a StreamError; the result does not depend on
the codeMap nor on the record parsers. -/
theorem decode_malformed_frame (env : Externs WireOrder FillNotify Order Fill Symbol)
    (cc : CodeC Symbol) (raw : Bytes) (err : Bytes)
    (hparse : env.unmarshalResponse raw = Except.error err) :
    CodeC.Decode env cc raw = (none, some (GoError.json err)) ∧
    (GoError.json err).isStreamError = false ∧
    (∀ cc' : CodeC Symbol, CodeC.Decode env cc' raw = CodeC.Decode env cc raw) ∧
    (∀ env' : Externs WireOrder FillNotify Order Fill Symbol,
      env'.unmarshalResponse = env.unmarshalResponse →
      CodeC.Decode env' cc raw = CodeC.Decode env cc raw) := by
  have key : ∀ (env' : Externs WireOrder FillNotify Order Fill Symbol) (cc' : CodeC Symbol),
      env'.unmarshalResponse raw = Except.error err →
      CodeC.Decode env' cc' raw = (none, some (GoError.json err)) := by
    intro env' cc' h
    simp only [CodeC.Decode, h]
  refine ⟨key env cc hparse, rfl, ?_, ?_⟩
  · intro cc'
    rw [key env cc' hparse, key env cc hparse]
  · intro env' henv
    rw [key env' cc (by rw [henv]; exact hparse), key env cc hparse]

theorem decode_malformed_frame_witness :
    Example.env.unmarshalResponse Example.truncatedFrame =
        Except.error (str "invalid character") ∧
      CodeC.Decode Example.env Example.codec Example.truncatedFrame =
        (none, some (GoError.json (str "invalid character"))) :=
  ⟨by rfl, (decode_malformed_frame Example.env Example.codec Example.truncatedFrame
    (str "invalid character") (by rfl)).1⟩

/-- The key of the outcome on the envelopes that carry the correlation ID. -/
theorem decode_key (env : Externs WireOrder FillNotify Order Fill Symbol)
    (cc : CodeC Symbol) (raw : Bytes) (cr : callResponse)
    (hparse : env.unmarshalResponse raw = Except.ok cr)
    (hkind : cr.Typ = typeError ∨ cr.Typ = typeSubscribed ∨ cr.Typ = typeUnSubscribed ∨
      (cr.Typ = typeInfo ∧ cr.Code ≠ 20001) ∨
      ((cr.Typ = typePartial ∨ cr.Typ = typeUpdate) ∧
        ((cr.Channel = channelOrders ∧ ∃ o, CodeC.parseOrder env cc cr.Data = Except.ok o) ∨
          (cr.Channel = channelFills ∧ ∃ f, CodeC.parseFills env cc cr.Data = Except.ok f)))) :
    ∃ resp, CodeC.Decode env cc raw = (some resp, none) ∧
      resp.key = cr.Channel ++ cr.Market := by
  rcases hkind with h | h | h | ⟨h, hcode⟩ | ⟨h, ⟨hch, o, ho⟩ | ⟨hch, f, hf⟩⟩
  · have hd : CodeC.Decode env cc raw = (some (Response.result
        { ID := cr.Channel ++ cr.Market
          Error := some (GoError.errorf
            (str "error msg: " ++ cr.Msg ++ str " code: " ++ formatInt cr.Code))
          Result := raw }), none) := by
      simp only [CodeC.Decode, hparse]
      rw [if_pos h]
    exact ⟨_, hd, rfl⟩
  · have hd : CodeC.Decode env cc raw = (some (Response.result
        { ID := cr.Channel ++ cr.Market, Error := none, Result := raw }), none) := by
      simp only [CodeC.Decode, hparse]
      rw [if_neg (by rw [h]; exact typeSubscribed_ne_typeError), if_pos (Or.inl h)]
    exact ⟨_, hd, rfl⟩
  · have hd : CodeC.Decode env cc raw = (some (Response.result
        { ID := cr.Channel ++ cr.Market, Error := none, Result := raw }), none) := by
      simp only [CodeC.Decode, hparse]
      rw [if_neg (by rw [h]; exact typeUnSubscribed_ne_typeError), if_pos (Or.inr h)]
    exact ⟨_, hd, rfl⟩
  · have hd : CodeC.Decode env cc raw = (some (Response.notify
        { Method := cr.Channel ++ cr.Market, Params := Params.raw cr.Data }), none) := by
      simp only [CodeC.Decode, hparse, h]
      rw [if_neg typeInfo_ne_typeError, if_neg typeInfo_not_subscribed,
        if_neg typeInfo_ne_typePong, if_pos trivial,
        if_neg (by simpa [codeReconnet] using hcode)]
    exact ⟨_, hd, rfl⟩
  · have hd : CodeC.Decode env cc raw = (some (Response.notify
        { Method := cr.Channel ++ cr.Market, Params := Params.order o }), none) := by
      rw [decode_data_branch env cc raw cr hparse h, if_pos hch, ho]
    exact ⟨_, hd, rfl⟩
  · have hd : CodeC.Decode env cc raw = (some (Response.notify
        { Method := cr.Channel ++ cr.Market, Params := Params.fill f }), none) := by
      rw [decode_data_branch env cc raw cr hparse h,
        if_neg (by rw [hch]; exact channelFills_ne_channelOrders), if_pos hch, hf]
    exact ⟨_, hd, rfl⟩

/-- C12: two frames with the same channel and the same market, each of type
"error", "subscribed", "unsubscribed", "info" with a code other than 20001, or
"partial"/"update" with a succeeding parser, decode to outcomes with the same
key (Result.ID or Notify.Method), namely channel ++ market. -/
theorem correlation_id_stable (env : Externs WireOrder FillNotify Order Fill Symbol)
    (cc : CodeC Symbol) (raw raw' : Bytes) (cr cr' : callResponse)
    (hparse : env.unmarshalResponse raw = Except.ok cr)
    (hparse' : env.unmarshalResponse raw' = Except.ok cr')
    (hkind : cr.Typ = typeError ∨ cr.Typ = typeSubscribed ∨ cr.Typ = typeUnSubscribed ∨
      (cr.Typ = typeInfo ∧ cr.Code ≠ 20001) ∨
      ((cr.Typ = typePartial ∨ cr.Typ = typeUpdate) ∧
        ((cr.Channel = channelOrders ∧ ∃ o, CodeC.parseOrder env cc cr.Data = Except.ok o) ∨
          (cr.Channel = channelFills ∧ ∃ f, CodeC.parseFills env cc cr.Data = Except.ok f))))
    (hkind' : cr'.Typ = typeError ∨ cr'.Typ = typeSubscribed ∨ cr'.Typ = typeUnSubscribed ∨
      (cr'.Typ = typeInfo ∧ cr'.Code ≠ 20001) ∨
      ((cr'.Typ = typePartial ∨ cr'.Typ = typeUpdate) ∧
        ((cr'.Channel = channelOrders ∧ ∃ o, CodeC.parseOrder env cc cr'.Data = Except.ok o) ∨
          (cr'.Channel = channelFills ∧ ∃ f, CodeC.parseFills env cc cr'.Data = Except.ok f))))
    (hchannel : cr'.Channel = cr.Channel) (hmarket : cr'.Market = cr.Market) :
    ∃ resp resp', CodeC.Decode env cc raw = (some resp, none) ∧
      CodeC.Decode env cc raw' = (some resp', none) ∧
      resp.key = cr.Channel ++ cr.Market ∧ resp'.key = resp.key := by
  obtain ⟨resp, hd, hk⟩ := decode_key env cc raw cr hparse hkind
  obtain ⟨resp', hd', hk'⟩ := decode_key env cc raw' cr' hparse' hkind'
  exact ⟨resp, resp', hd, hd', hk, by rw [hk', hk, hchannel, hmarket]⟩

theorem correlation_id_stable_witness :
    ∃ resp resp',
      CodeC.Decode Example.env Example.codec Example.orderErrorFrame = (some resp, none) ∧
      CodeC.Decode Example.env Example.codec Example.subscribedFrame = (some resp', none) ∧
      resp.key = str "orders" ++ str "BTC-PERP" ∧ resp'.key = resp.key :=
  correlation_id_stable Example.env Example.codec Example.orderErrorFrame
    Example.subscribedFrame Example.orderErrorEnvelope Example.subscribedEnvelope
    (by rfl) (by rfl) (Or.inl (by decide)) (Or.inr (Or.inl (by decide)))
    (by decide) (by decide)

theorem decode_error_context_counterexample :
    Example.env.unmarshalResponse Example.tradeTypeFrame =
        Except.ok Example.tradeTypeEnvelope ∧
      CodeC.Decode Example.env Example.codec Example.tradeTypeFrame =
        (none, some (GoError.errorf (str "unsupport type 'trade'"))) ∧
      ¬ Example.tradeTypeFrame <:+: str "unsupport type 'trade'" ∧
      ¬ Example.tradeTypeEnvelope.Channel <:+: str "unsupport type 'trade'" ∧
      ¬ Example.tradeTypeEnvelope.Market <:+: str "unsupport type 'trade'" ∧
      ¬ formatInt Example.tradeTypeEnvelope.Code <:+: str "unsupport type 'trade'" :=
  ⟨by rfl, by decide, by decide, by decide, by decide, by decide⟩

/-- C13 (amended): every error `Decode` returns is one of five: the parse error of
the envelope; on type "info" with code 20001 the StreamError whose cause has
the text "ftx ws reset info " followed by the raw frame; on "partial"/"update"
with channel "orders" or "fills" the parser's own error; on "partial"/"update"
with another channel the error with text "unsupport channel '<channel>'"; on a
type outside the seven known ones the error with text "unsupport type '<type>'". -/
theorem decode_error_origin (env : Externs WireOrder FillNotify Order Fill Symbol)
    (cc : CodeC Symbol) (raw : Bytes) (e : GoError)
    (he : (CodeC.Decode env cc raw).2 = some e) :
    (∃ err, env.unmarshalResponse raw = Except.error err ∧ e = GoError.json err) ∨
    (∃ cr, env.unmarshalResponse raw = Except.ok cr ∧
      ((cr.Typ = typeInfo ∧ cr.Code = 20001 ∧
          e = NewStreamError (GoError.errorf (str "ftx ws reset info " ++ raw))) ∨
        ((cr.Typ = typePartial ∨ cr.Typ = typeUpdate) ∧ cr.Channel = channelOrders ∧
          CodeC.parseOrder env cc cr.Data = Except.error e) ∨
        ((cr.Typ = typePartial ∨ cr.Typ = typeUpdate) ∧ cr.Channel = channelFills ∧
          CodeC.parseFills env cc cr.Data = Except.error e) ∨
        ((cr.Typ = typePartial ∨ cr.Typ = typeUpdate) ∧ cr.Channel ≠ channelOrders ∧
          cr.Channel ≠ channelFills ∧
          e = GoError.errorf (str "unsupport channel '" ++ cr.Channel ++ str "'")) ∨
        (cr.Typ ∉ [typeError, typeSubscribed, typeUnSubscribed, typePong, typeInfo,
            typePartial, typeUpdate] ∧
          e = GoError.errorf (str "unsupport type '" ++ cr.Typ ++ str "'")))) := by
  cases hu : env.unmarshalResponse raw with
  | error err =>
    left
    simp only [CodeC.Decode, hu] at he
    exact ⟨err, rfl, (Option.some.inj he).symm⟩
  | ok cr =>
    right
    refine ⟨cr, rfl, ?_⟩
    simp only [CodeC.Decode, hu] at he
    by_cases h1 : cr.Typ = typeError
    · rw [if_pos h1] at he; simp at he
    rw [if_neg h1] at he
    by_cases h2 : cr.Typ = typeSubscribed ∨ cr.Typ = typeUnSubscribed
    · rw [if_pos h2] at he; simp at he
    rw [if_neg h2] at he
    by_cases h3 : cr.Typ = typePong
    · rw [if_pos h3] at he; simp at he
    rw [if_neg h3] at he
    by_cases h4 : cr.Typ = typeInfo
    · rw [if_pos h4] at he
      by_cases h5 : cr.Code = codeReconnet
      · rw [if_pos h5] at he
        exact Or.inl ⟨h4, h5, (Option.some.inj he).symm⟩
      · rw [if_neg h5] at he; simp at he
    rw [if_neg h4] at he
    by_cases h6 : cr.Typ = typePartial ∨ cr.Typ = typeUpdate
    · rw [if_pos h6] at he
      by_cases h7 : cr.Channel = channelOrders
      · rw [if_pos h7] at he
        cases hp : CodeC.parseOrder env cc cr.Data with
        | error err =>
          rw [hp] at he
          have he' : err = e := Option.some.inj he
          exact Or.inr (Or.inl ⟨h6, h7, by rw [he']⟩)
        | ok o => rw [hp] at he; simp at he
      rw [if_neg h7] at he
      by_cases h8 : cr.Channel = channelFills
      · rw [if_pos h8] at he
        cases hp : CodeC.parseFills env cc cr.Data with
        | error err =>
          rw [hp] at he
          have he' : err = e := Option.some.inj he
          exact Or.inr (Or.inr (Or.inl ⟨h6, h8, by rw [he']⟩))
        | ok f => rw [hp] at he; simp at he
      rw [if_neg h8] at he
      exact Or.inr (Or.inr (Or.inr (Or.inl ⟨h6, h7, h8, (Option.some.inj he).symm⟩)))
    · rw [if_neg h6] at he
      refine Or.inr (Or.inr (Or.inr (Or.inr ⟨?_, (Option.some.inj he).symm⟩)))
      simp only [List.mem_cons, List.mem_singleton, List.not_mem_nil, or_false, not_or]
      exact ⟨h1, (not_or.mp h2).1, (not_or.mp h2).2, h3, h4, (not_or.mp h6).1, (not_or.mp h6).2⟩

theorem decode_error_origin_witness :
    ∃ e, (CodeC.Decode Example.env Example.codec Example.reconnectFrame).2 = some e ∧
      ((∃ err, Example.env.unmarshalResponse Example.reconnectFrame = Except.error err ∧
          e = GoError.json err) ∨
        (∃ cr, Example.env.unmarshalResponse Example.reconnectFrame = Except.ok cr ∧
          ((cr.Typ = typeInfo ∧ cr.Code = 20001 ∧
              e = NewStreamError
                (GoError.errorf (str "ftx ws reset info " ++ Example.reconnectFrame))) ∨
            ((cr.Typ = typePartial ∨ cr.Typ = typeUpdate) ∧ cr.Channel = channelOrders ∧
              CodeC.parseOrder Example.env Example.codec cr.Data = Except.error e) ∨
            ((cr.Typ = typePartial ∨ cr.Typ = typeUpdate) ∧ cr.Channel = channelFills ∧
              CodeC.parseFills Example.env Example.codec cr.Data = Except.error e) ∨
            ((cr.Typ = typePartial ∨ cr.Typ = typeUpdate) ∧ cr.Channel ≠ channelOrders ∧
              cr.Channel ≠ channelFills ∧
              e = GoError.errorf (str "unsupport channel '" ++ cr.Channel ++ str "'")) ∨
            (cr.Typ ∉ [typeError, typeSubscribed, typeUnSubscribed, typePong, typeInfo,
                typePartial, typeUpdate] ∧
              e = GoError.errorf (str "unsupport type '" ++ cr.Typ ++ str "'"))))) :=
  ⟨NewStreamError (GoError.errorf (str "ftx ws reset info " ++ Example.reconnectFrame)),
    by rfl,
    decode_error_origin Example.env Example.codec Example.reconnectFrame _ (by rfl)⟩

/-- C15: for every frame and every codeMap, `Decode` returns either a response
with a nil error or a nil response with an error, never both and never
neither. -/
theorem decode_outcome_exclusive (env : Externs WireOrder FillNotify Order Fill Symbol)
    (cc : CodeC Symbol) (raw : Bytes) :
    (∃ resp, CodeC.Decode env cc raw = (some resp, none)) ∨
      (∃ e, CodeC.Decode env cc raw = (none, some e)) := by
  unfold CodeC.Decode
  split
  · exact Or.inr ⟨_, rfl⟩
  · simp only []
    split_ifs
    all_goals first
      | exact Or.inl ⟨_, rfl⟩
      | exact Or.inr ⟨_, rfl⟩
      | (split <;> first | exact Or.inl ⟨_, rfl⟩ | exact Or.inr ⟨_, rfl⟩)

/-- C16: the correlation ID is not injective: "subscribed" frames for the distinct
pairs (channel "ab", market "c") and (channel "a", market "bc") decode to Results
with the same ID. -/
theorem correlation_id_not_injective (env : Externs WireOrder FillNotify Order Fill Symbol)
    (cc : CodeC Symbol) (raw raw' : Bytes) (cr cr' : callResponse)
    (hparse : env.unmarshalResponse raw = Except.ok cr)
    (hparse' : env.unmarshalResponse raw' = Except.ok cr')
    (htype : cr.Typ = typeSubscribed) (htype' : cr'.Typ = typeSubscribed)
    (hchannel : cr.Channel = str "ab") (hmarket : cr.Market = str "c")
    (hchannel' : cr'.Channel = str "a") (hmarket' : cr'.Market = str "bc") :
    (cr.Channel, cr.Market) ≠ (cr'.Channel, cr'.Market) ∧
    ∃ r r' : Result, CodeC.Decode env cc raw = (some (Response.result r), none) ∧
      CodeC.Decode env cc raw' = (some (Response.result r'), none) ∧ r.ID = r'.ID := by
  have key : ∀ (b : Bytes) (c : callResponse), env.unmarshalResponse b = Except.ok c →
      c.Typ = typeSubscribed → CodeC.Decode env cc b =
        (some (Response.result { ID := c.Channel ++ c.Market, Error := none, Result := b }),
          none) := by
    intro b c hb hc
    simp only [CodeC.Decode, hb]
    rw [if_neg (by rw [hc]; exact typeSubscribed_ne_typeError), if_pos (Or.inl hc)]
  refine ⟨?_, _, _, key raw cr hparse htype, key raw' cr' hparse' htype', ?_⟩
  · rw [hchannel, hmarket, hchannel', hmarket']
    decide
  · show cr.Channel ++ cr.Market = cr'.Channel ++ cr'.Market
    rw [hchannel, hmarket, hchannel', hmarket']
    decide

theorem correlation_id_not_injective_witness :
    (Example.abEnvelope.Channel, Example.abEnvelope.Market) ≠
        (Example.aEnvelope.Channel, Example.aEnvelope.Market) ∧
      ∃ r r' : Result,
        CodeC.Decode Example.env Example.codec Example.abFrame =
          (some (Response.result r), none) ∧
        CodeC.Decode Example.env Example.codec Example.aFrame =
          (some (Response.result r'), none) ∧ r.ID = r'.ID :=
  correlation_id_not_injective Example.env Example.codec Example.abFrame Example.aFrame
    Example.abEnvelope Example.aEnvelope (by rfl) (by rfl) (by decide) (by decide)
    (by decide) (by decide) (by decide) (by decide)

end Properties

end ftx

namespace exchange

open ftx (Bytes str)

/-! ## Properties of the instrument model -/

/-- C14: the property built from a configuration, and every symbol built by
NewBaseSpotSymbol, NewBaseMarginSymbol, NewBaseOptionSymbol,
NewBaseFuturesSymbolWithCfg, NewBaseFuturesSymbolWithCfgCV and
NewBaseSwapSymbolWithCfg, reports each of the six configured values under the
getter of the same name, and Raw() returns the raw key passed in. -/
theorem symbol_reports_config (Raw Time : Type) (cfg : SymbolConfig) (raw : Option Raw)
    (base quote index : Bytes) (st : Time) (strike lever cv : Decimal)
    (otyp : OptionType) (ftyp : FutureType) :
    (cfg.Property.PricePrecision = cfg.PricePrecision ∧
      cfg.Property.AmountPrecision = cfg.AmountPrecision ∧
      cfg.Property.ValuePrecision = cfg.ValuePrecision ∧
      cfg.Property.AmountMin = cfg.AmountMin ∧
      cfg.Property.AmountMax = cfg.AmountMax ∧
      cfg.Property.ValueMin = cfg.ValueMin) ∧
    ((NewBaseSpotSymbol base quote cfg raw).PricePrecision = cfg.PricePrecision ∧
      (NewBaseSpotSymbol base quote cfg raw).AmountPrecision = cfg.AmountPrecision ∧
      (NewBaseSpotSymbol base quote cfg raw).ValuePrecision = cfg.ValuePrecision ∧
      (NewBaseSpotSymbol base quote cfg raw).AmountMin = cfg.AmountMin ∧
      (NewBaseSpotSymbol base quote cfg raw).AmountMax = cfg.AmountMax ∧
      (NewBaseSpotSymbol base quote cfg raw).ValueMin = cfg.ValueMin ∧
      (NewBaseSpotSymbol base quote cfg raw).Raw = raw) ∧
    ((NewBaseMarginSymbol base quote cfg lever raw).PricePrecision = cfg.PricePrecision ∧
      (NewBaseMarginSymbol base quote cfg lever raw).AmountPrecision = cfg.AmountPrecision ∧
      (NewBaseMarginSymbol base quote cfg lever raw).ValuePrecision = cfg.ValuePrecision ∧
      (NewBaseMarginSymbol base quote cfg lever raw).AmountMin = cfg.AmountMin ∧
      (NewBaseMarginSymbol base quote cfg lever raw).AmountMax = cfg.AmountMax ∧
      (NewBaseMarginSymbol base quote cfg lever raw).ValueMin = cfg.ValueMin ∧
      (NewBaseMarginSymbol base quote cfg lever raw).Raw = raw) ∧
    ((NewBaseOptionSymbol index st strike otyp cfg raw).PricePrecision = cfg.PricePrecision ∧
      (NewBaseOptionSymbol index st strike otyp cfg raw).AmountPrecision =
        cfg.AmountPrecision ∧
      (NewBaseOptionSymbol index st strike otyp cfg raw).ValuePrecision = cfg.ValuePrecision ∧
      (NewBaseOptionSymbol index st strike otyp cfg raw).AmountMin = cfg.AmountMin ∧
      (NewBaseOptionSymbol index st strike otyp cfg raw).AmountMax = cfg.AmountMax ∧
      (NewBaseOptionSymbol index st strike otyp cfg raw).ValueMin = cfg.ValueMin ∧
      (NewBaseOptionSymbol index st strike otyp cfg raw).Raw = raw) ∧
    ((NewBaseFuturesSymbolWithCfg index st ftyp cfg raw).PricePrecision = cfg.PricePrecision ∧
      (NewBaseFuturesSymbolWithCfg index st ftyp cfg raw).AmountPrecision =
        cfg.AmountPrecision ∧
      (NewBaseFuturesSymbolWithCfg index st ftyp cfg raw).ValuePrecision =
        cfg.ValuePrecision ∧
      (NewBaseFuturesSymbolWithCfg index st ftyp cfg raw).AmountMin = cfg.AmountMin ∧
      (NewBaseFuturesSymbolWithCfg index st ftyp cfg raw).AmountMax = cfg.AmountMax ∧
      (NewBaseFuturesSymbolWithCfg index st ftyp cfg raw).ValueMin = cfg.ValueMin ∧
      (NewBaseFuturesSymbolWithCfg index st ftyp cfg raw).Raw = raw) ∧
    ((NewBaseFuturesSymbolWithCfgCV index st ftyp cfg cv raw).PricePrecision =
        cfg.PricePrecision ∧
      (NewBaseFuturesSymbolWithCfgCV index st ftyp cfg cv raw).AmountPrecision =
        cfg.AmountPrecision ∧
      (NewBaseFuturesSymbolWithCfgCV index st ftyp cfg cv raw).ValuePrecision =
        cfg.ValuePrecision ∧
      (NewBaseFuturesSymbolWithCfgCV index st ftyp cfg cv raw).AmountMin = cfg.AmountMin ∧
      (NewBaseFuturesSymbolWithCfgCV index st ftyp cfg cv raw).AmountMax = cfg.AmountMax ∧
      (NewBaseFuturesSymbolWithCfgCV index st ftyp cfg cv raw).ValueMin = cfg.ValueMin ∧
      (NewBaseFuturesSymbolWithCfgCV index st ftyp cfg cv raw).Raw = raw) ∧
    ((NewBaseSwapSymbolWithCfg index cv cfg raw).PricePrecision = cfg.PricePrecision ∧
      (NewBaseSwapSymbolWithCfg index cv cfg raw).AmountPrecision = cfg.AmountPrecision ∧
      (NewBaseSwapSymbolWithCfg index cv cfg raw).ValuePrecision = cfg.ValuePrecision ∧
      (NewBaseSwapSymbolWithCfg index cv cfg raw).AmountMin = cfg.AmountMin ∧
      (NewBaseSwapSymbolWithCfg index cv cfg raw).AmountMax = cfg.AmountMax ∧
      (NewBaseSwapSymbolWithCfg index cv cfg raw).ValueMin = cfg.ValueMin ∧
      (NewBaseSwapSymbolWithCfg index cv cfg raw).Raw = raw) :=
  ⟨⟨rfl, rfl, rfl, rfl, rfl, rfl⟩,
    ⟨rfl, rfl, rfl, rfl, rfl, rfl, rfl⟩,
    ⟨rfl, rfl, rfl, rfl, rfl, rfl, rfl⟩,
    ⟨rfl, rfl, rfl, rfl, rfl, rfl, rfl⟩,
    ⟨rfl, rfl, rfl, rfl, rfl, rfl, rfl⟩,
    ⟨rfl, rfl, rfl, rfl, rfl, rfl, rfl⟩,
    ⟨rfl, rfl, rfl, rfl, rfl, rfl, rfl⟩⟩

theorem floorLog2Aux_spec : ∀ (fuel n : Nat), n ≤ fuel → n ≠ 0 →
    2 ^ floorLog2Aux fuel n ≤ n ∧ n < 2 ^ (floorLog2Aux fuel n + 1)
  | 0, n, hle, hne => absurd (Nat.le_zero.mp hle) hne
  | fuel + 1, n, hle, hne => by
    unfold floorLog2Aux
    by_cases h2 : 2 ≤ n
    · rw [if_pos h2]
      have hhalf : n / 2 ≤ fuel := by omega
      have hne' : n / 2 ≠ 0 := by omega
      obtain ⟨hlo, hhi⟩ := floorLog2Aux_spec fuel (n / 2) hhalf hne'
      constructor
      · rw [pow_succ]; omega
      · rw [pow_succ]; omega
    · rw [if_neg h2]
      have h1 : n = 1 := by omega
      subst h1
      constructor <;> norm_num

theorem floorLog2_le (n : Nat) (h : n ≠ 0) : 2 ^ floorLog2 n ≤ n :=
  (floorLog2Aux_spec n n (Nat.le_refl n) h).1

theorem lt_floorLog2 (n : Nat) (h : n ≠ 0) : n < 2 ^ (floorLog2 n + 1) :=
  (floorLog2Aux_spec n n (Nat.le_refl n) h).2

theorem binaryExponent_le (n d : Nat) (hn : n ≠ 0) (hd : d ≠ 0) (h : n < 2 ^ 53 * d) :
    binaryExponent n d ≤ 52 := by
  by_contra hcon
  have hge : 53 ≤ binaryExponent n d := by omega
  have hlog : ¬ floorLog2 d + 54 ≤ floorLog2 n := by
    intro hlog
    have h1 := floorLog2_le n hn
    have h2 := lt_floorLog2 d hd
    have h3 : 2 ^ (floorLog2 d + 54) ≤ 2 ^ floorLog2 n :=
      Nat.pow_le_pow_right (by norm_num) hlog
    have h4 : 2 ^ (floorLog2 d + 54) = 2 ^ 53 * 2 ^ (floorLog2 d + 1) := by
      rw [← pow_add]; congr 1; omega
    have h5 : 2 ^ 53 * d < 2 ^ 53 * 2 ^ (floorLog2 d + 1) :=
      (Nat.mul_lt_mul_left (by positivity)).mpr h2
    omega
  unfold binaryExponent at hge
  simp only at hge
  split_ifs at hge with h0 hc
  · have hpow : 2 ^ 53 ≤ 2 ^ ((floorLog2 n : Int) - (floorLog2 d : Int)).toNat :=
      Nat.pow_le_pow_right (by norm_num) (by omega)
    have : d * 2 ^ 53 ≤ n := le_trans (Nat.mul_le_mul_left d hpow) hc
    omega
  · omega
  · omega
  · omega

theorem le_roundHalfEven (n d A : Nat) (hd : 0 < d) (h : A * d ≤ n) :
    A ≤ roundHalfEven n d := by
  have hq : A ≤ n / d := (Nat.le_div_iff_mul_le hd).mpr h
  unfold roundHalfEven
  simp only
  split_ifs <;> omega

theorem roundHalfEven_le (n d B : Nat) (hd : 0 < d) (h : n ≤ B * d) :
    roundHalfEven n d ≤ B := by
  have hq : n / d ≤ B := by
    calc n / d ≤ B * d / d := Nat.div_le_div_right h
      _ = B := Nat.mul_div_cancel B hd
  have hmod := Nat.div_add_mod n d
  by_cases hqB : n / d = B
  · -- then the remainder is zero
    have hr : n % d = 0 := by
      have : d * B + n % d ≤ B * d := by rw [← hqB]; rw [hqB] at hmod ⊢; omega
      have hcomm : d * B = B * d := Nat.mul_comm d B
      omega
    unfold roundHalfEven
    simp only [hr]
    rw [if_pos (by omega)]
    omega
  · have hlt : n / d + 1 ≤ B := by omega
    unfold roundHalfEven
    simp only
    split_ifs <;> omega

theorem toInt64_float64_bounds (c j : Nat) (hlo : j * 10 ^ 16 ≤ c)
    (hhi : c ≤ (j + 1) * 10 ^ 16) (hc : c < 2 ^ 53 * 10 ^ 16) (hj : j + 1 ≤ 2 ^ 53) :
    (j : Int) ≤ toInt64 (Decimal.Float64 { value := (c : Int), exp := -16 }) ∧
      toInt64 (Decimal.Float64 { value := (c : Int), exp := -16 }) ≤ (j : Int) + 1 := by
  have hT : (0 : Nat) < 10 ^ 16 := by positivity
  have hfloat : Decimal.Float64 { value := (c : Int), exp := -16 } =
      Float64.ofRat (c : Int) (10 ^ 16) := by
    unfold Decimal.Float64
    simp only []
    rw [if_pos (by decide)]
    rfl
  rw [hfloat]
  by_cases hc0 : c = 0
  · subst hc0
    have hj0 : j = 0 := by
      rcases Nat.eq_zero_or_pos j with h | h
      · exact h
      · exact absurd hlo (by have := Nat.mul_pos h hT; omega)
    subst hj0
    simp [Float64.ofRat, toInt64]
  · have hcne : (c : Int) ≠ 0 := by exact_mod_cast hc0
    have he : binaryExponent c (10 ^ 16) ≤ 52 := by
      exact binaryExponent_le c (10 ^ 16) hc0 (by positivity) hc
    unfold Float64.ofRat
    rw [if_neg hcne]
    simp only [Int.natAbs_ofNat]
    generalize hs : min (52 - binaryExponent c (10 ^ 16)) 1074 = s
    have hs0 : 0 ≤ s := by rw [← hs]; exact le_min (by omega) (by norm_num)
    obtain ⟨σ, rfl⟩ := Int.eq_ofNat_of_zero_le hs0
    rw [if_pos hs0, Int.toNat_ofNat]
    have hmlo : j * 2 ^ σ ≤ roundHalfEven (c * 2 ^ σ) (10 ^ 16) := by
      apply le_roundHalfEven _ _ _ hT
      calc j * 2 ^ σ * 10 ^ 16 = j * 10 ^ 16 * 2 ^ σ := by ring
        _ ≤ c * 2 ^ σ := Nat.mul_le_mul_right _ hlo
    have hmhi : roundHalfEven (c * 2 ^ σ) (10 ^ 16) ≤ (j + 1) * 2 ^ σ := by
      apply roundHalfEven_le _ _ _ hT
      calc c * 2 ^ σ ≤ (j + 1) * 10 ^ 16 * 2 ^ σ := Nat.mul_le_mul_right _ hhi
        _ = (j + 1) * 2 ^ σ * 10 ^ 16 := by ring
    generalize roundHalfEven (c * 2 ^ σ) (10 ^ 16) = m at hmlo hmhi
    have hnover : ¬ ((971 : Int) < -(σ : Int) ∨ (-(σ : Int) = 971 ∧ 2 ^ 53 ≤ m)) := by omega
    rw [if_neg hnover]
    have hsign : (c : Int).sign = 1 := Int.sign_eq_one_of_pos (by omega)
    rw [hsign, one_mul]
    have hpos : 0 < 2 ^ σ := by positivity
    -- the truncated value
    have ht : (j : Int) ≤ (if (0 : Int) ≤ -(σ : Int) then (m : Int) * 2 ^ (-(σ : Int)).toNat
          else Int.tdiv (m : Int) (2 ^ (-(-(σ : Int))).toNat)) ∧
        (if (0 : Int) ≤ -(σ : Int) then (m : Int) * 2 ^ (-(σ : Int)).toNat
          else Int.tdiv (m : Int) (2 ^ (-(-(σ : Int))).toNat)) ≤ (j : Int) + 1 := by
      by_cases hσ : σ = 0
      · subst hσ
        simp only [pow_zero, mul_one] at hmlo hmhi
        simp
        omega
      · rw [if_neg (by omega)]
        have hnn : (-(-(σ : Int))).toNat = σ := by simp
        rw [hnn]
        have hdiv : Int.tdiv (m : Int) (2 ^ σ) = ((m / 2 ^ σ : Nat) : Int) := by
          rw [Int.tdiv_eq_ediv (by positivity) (by positivity)]
          norm_cast
        rw [hdiv]
        have h1 : j ≤ m / 2 ^ σ := (Nat.le_div_iff_mul_le hpos).mpr hmlo
        have h2 : m / 2 ^ σ ≤ j + 1 := by
          calc m / 2 ^ σ ≤ (j + 1) * 2 ^ σ / 2 ^ σ := Nat.div_le_div_right hmhi
            _ = j + 1 := Nat.mul_div_cancel _ hpos
        omega
    unfold toInt64
    simp only
    generalize (if (0 : Int) ≤ -(σ : Int) then (m : Int) * 2 ^ (-(σ : Int)).toNat
          else Int.tdiv (m : Int) (2 ^ (-(-(σ : Int))).toNat)) = t at ht
    have hj' : (j : Int) + 1 ≤ 2 ^ 53 := by exact_mod_cast hj
    rw [if_pos (by constructor <;> omega)]
    exact ht

theorem toInt64_float64_exact (j : Nat) (hj : j < 2 ^ 53) :
    toInt64 (Decimal.Float64 { value := ((j * 10 ^ 16 : Nat) : Int), exp := -16 }) = (j : Int) := by
  have hc : j * 10 ^ 16 < 2 ^ 53 * 10 ^ 16 := (Nat.mul_lt_mul_right (by positivity)).mpr hj
  have hup := toInt64_float64_bounds (j * 10 ^ 16) j (Nat.le_refl _)
    (Nat.mul_le_mul_right _ (Nat.le_succ j)) hc hj
  rcases Nat.eq_zero_or_pos j with h0 | hpos
  · subst h0
    decide
  · obtain ⟨i, rfl⟩ : ∃ i, j = i + 1 := ⟨j - 1, by omega⟩
    have hdown := toInt64_float64_bounds ((i + 1) * 10 ^ 16) i
      (Nat.mul_le_mul_right _ (Nat.le_succ i)) (Nat.le_refl _) hc (by omega)
    have h1 := hup.1
    have h2 := hdown.2
    push_cast at h1 h2 ⊢
    omega

/-- The division of a nonnegative decimal by a positive one: the scaled
integers the library divides, the rounded quotient, and the common scale. -/
theorem div_nonneg (A B : Nat) (ea eb : Int) (hB : 0 < B) :
    ∃ (aa bb q : Nat) (c : ℚ), 0 < bb ∧ 0 < c ∧
      Decimal.Div { value := (A : Int), exp := ea } { value := (B : Int), exp := eb } =
        some { value := (q : Int), exp := -16 } ∧
      (q = aa / bb ∨ q = aa / bb + 1) ∧ (aa % bb = 0 → q = aa / bb) ∧
      Decimal.toRat { value := (A : Int), exp := ea } = (aa : ℚ) * c ∧
      Decimal.toRat { value := (B : Int), exp := eb } = (bb : ℚ) * 10 ^ 16 * c ∧
      (ea = 0 + eb → A = A / B * B → aa = A / B * 10 ^ 16 * bb) := by
  have hBne : (B : Int) ≠ 0 := by omega
  have hsign : ¬ (Int.sign (A : Int) * Int.sign (B : Int) < 0) := by
    have h1 : Int.sign (B : Int) = 1 := Int.sign_eq_one_of_pos (by omega)
    have h2 : 0 ≤ Int.sign (A : Int) := Int.sign_nonneg.mpr (by omega)
    rw [h1]; omega
  have key : ∀ aa bb : Nat, 0 < bb →
      (if 2 * (Int.tmod (aa : Int) (bb : Int)).natAbs < (bb : Int).natAbs then
          some ({ value := Int.tdiv (aa : Int) (bb : Int), exp := -16 } : Decimal)
        else if Int.sign (A : Int) * Int.sign (B : Int) < 0 then
          some { value := Int.tdiv (aa : Int) (bb : Int) - 1, exp := -16 }
        else some { value := Int.tdiv (aa : Int) (bb : Int) + 1, exp := -16 }) =
        some { value := ((if 2 * (aa % bb) < bb then aa / bb else aa / bb + 1 : Nat) : Int),
               exp := -16 } := by
    intro aa bb hbb
    have hq : Int.tdiv (aa : Int) (bb : Int) = ((aa / bb : Nat) : Int) := by
      rw [Int.tdiv_eq_ediv (by positivity) (by positivity)]; norm_cast
    have hr : Int.tmod (aa : Int) (bb : Int) = ((aa % bb : Nat) : Int) := by
      rw [Int.tmod_eq_emod (by positivity) (by positivity)]; norm_cast
    rw [hq, hr, Int.natAbs_ofNat, Int.natAbs_ofNat]
    by_cases h : 2 * (aa % bb) < bb
    · rw [if_pos h, if_pos h]
    · rw [if_neg h, if_neg h, if_neg hsign]
      norm_cast
  have hq : ∀ aa bb : Nat, ((if 2 * (aa % bb) < bb then aa / bb else aa / bb + 1 : Nat) = aa / bb ∨
      (if 2 * (aa % bb) < bb then aa / bb else aa / bb + 1 : Nat) = aa / bb + 1) := by
    intro aa bb
    by_cases h : 2 * (aa % bb) < bb
    · left; rw [if_pos h]
    · right; rw [if_neg h]
  have hexact : ∀ aa bb : Nat, 0 < bb → aa % bb = 0 →
      (if 2 * (aa % bb) < bb then aa / bb else aa / bb + 1 : Nat) = aa / bb := by
    intro aa bb hbb h
    rw [if_pos (by omega)]
  by_cases he : ea - eb + 16 < 0
  · -- the divisor is scaled up
    have hbb : 0 < B * 10 ^ (-(ea - eb + 16)).toNat := Nat.mul_pos hB (by positivity)
    refine ⟨A, B * 10 ^ (-(ea - eb + 16)).toNat, _, (10 : ℚ) ^ ea, hbb, by positivity, ?_,
      hq _ _, hexact _ _ hbb, ?_, ?_, ?_⟩
    · unfold Decimal.Div Decimal.DivRound DivisionPrecision
      simp only []
      rw [if_neg hBne, if_pos he, if_pos he]
      have := key A (B * 10 ^ (-(ea - eb + 16)).toNat) hbb
      push_cast at this ⊢
      exact this
    · simp [Decimal.toRat]
    · simp only [Decimal.toRat]
      push_cast
      have h1 : ((10 : ℚ) ^ (-(ea - eb + 16)).toNat) = (10 : ℚ) ^ (-(ea - eb + 16)) := by
        rw [← zpow_natCast, Int.toNat_of_nonneg (by omega)]
      rw [h1]
      have h2 : (10 : ℚ) ^ (16 : ℕ) = (10 : ℚ) ^ (16 : ℤ) := by norm_cast
      rw [h2, mul_assoc, mul_assoc, ← zpow_add₀ (by norm_num), ← zpow_add₀ (by norm_num)]
      congr 2
      omega
    · intro hea; omega
  · -- the dividend is scaled up
    refine ⟨A * 10 ^ (ea - eb + 16).toNat, B, _, (10 : ℚ) ^ (eb - 16), hB, by positivity, ?_,
      hq _ _, hexact _ _ hB, ?_, ?_, ?_⟩
    · unfold Decimal.Div Decimal.DivRound DivisionPrecision
      simp only []
      rw [if_neg hBne, if_neg he, if_neg he]
      have := key (A * 10 ^ (ea - eb + 16).toNat) B hB
      push_cast at this ⊢
      exact this
    · simp only [Decimal.toRat]
      push_cast
      have h1 : ((10 : ℚ) ^ (ea - eb + 16).toNat) = (10 : ℚ) ^ (ea - eb + 16) := by
        rw [← zpow_natCast, Int.toNat_of_nonneg (by omega)]
      rw [h1, mul_assoc, ← zpow_add₀ (by norm_num)]
      congr 2
      omega
    · simp only [Decimal.toRat]
      push_cast
      have h2 : (10 : ℚ) ^ (16 : ℕ) = (10 : ℚ) ^ (16 : ℤ) := by norm_cast
      rw [h2, mul_assoc, ← zpow_add₀ (by norm_num)]
      congr 2
      omega
    · intro hea hmul
      have h16 : (ea - eb + 16).toNat = 16 := by omega
      rw [h16]
      calc A * 10 ^ 16 = A / B * B * 10 ^ 16 := by rw [← hmul]
        _ = A / B * 10 ^ 16 * B := by ring

theorem round_shopspring_eq (val p q : Decimal) (h : Decimal.Div val p = some q) :
    Round shopspring val p =
      some (Decimal.Mul (Decimal.NewFromInt (toInt64 (Decimal.Float64 q))) p) := by
  simp only [Round, shopspring, h]

set_option maxRecDepth 8000 in
theorem round_floor_counterexample :
    (Round shopspring { value := 99999999999999999, exp := -17 } { value := 1, exp := 0 } =
        some { value := 1, exp := 0 } ∧
      Decimal.toRat { value := 99999999999999999, exp := -17 } <
        Decimal.toRat { value := 1, exp := 0 }) ∧
    (Round shopspring { value := 49999999999999999, exp := -16 } { value := 1, exp := 0 } =
        some { value := 5, exp := 0 } ∧
      Decimal.toRat { value := 49999999999999999, exp := -16 } <
        Decimal.toRat { value := 5, exp := 0 }) ∧
    (Round shopspring { value := 9007199254740993, exp := 0 } { value := 1, exp := 0 } =
        some { value := 9007199254740992, exp := 0 } ∧
      ¬ Decimal.toRat { value := 9007199254740993, exp := 0 } <
        Decimal.toRat { value := 9007199254740992, exp := 0 } +
          Decimal.toRat { value := 1, exp := 0 }) :=
  ⟨⟨by decide, by norm_num [Decimal.toRat]⟩, ⟨by decide, by norm_num [Decimal.toRat]⟩,
    ⟨by decide, by norm_num [Decimal.toRat]⟩⟩

/-- C17 (amended): for every decimal val ≥ 0 and every decimal p > 0 with
val / p < 2 ^ 53 - 1, `Round` returns n * p for an integer n that is the floor of
val / p or that floor plus one, so Round(val, p) - p ≤ val < Round(val, p) + p,
and rounding the result again returns it unchanged. -/
theorem round_near_floor (val p : Decimal) (hval : 0 ≤ val.value) (hp : 0 < p.value)
    (hsmall : val.toRat < (2 ^ 53 - 1) * p.toRat) :
    ∃ n : Int, Round shopspring val p = some (Decimal.Mul (Decimal.NewFromInt n) p) ∧
      (n = ⌊val.toRat / p.toRat⌋ ∨ n = ⌊val.toRat / p.toRat⌋ + 1) ∧
      (Decimal.Mul (Decimal.NewFromInt n) p).toRat = n * p.toRat ∧
      n * p.toRat - p.toRat ≤ val.toRat ∧ val.toRat < n * p.toRat + p.toRat ∧
      Round shopspring (Decimal.Mul (Decimal.NewFromInt n) p) p =
        some (Decimal.Mul (Decimal.NewFromInt n) p) := by
  obtain ⟨a, ea⟩ := val
  obtain ⟨b, eb⟩ := p
  simp only at hval hp
  obtain ⟨A, rfl⟩ := Int.eq_ofNat_of_zero_le hval
  obtain ⟨B, rfl⟩ := Int.eq_ofNat_of_zero_le (le_of_lt hp)
  have hB : 0 < B := by exact_mod_cast hp
  have hT : (0 : Nat) < 10 ^ 16 := by positivity
  obtain ⟨aa, bb, q, c, hbb, hc, hdiv, hq, -, hV, hP, -⟩ := div_nonneg A B ea eb hB
  -- the quotient, an integer below 2^53 - 1
  have hbbT : (0 : ℚ) < (bb : ℚ) * 10 ^ 16 := by positivity
  have hPpos : (0 : ℚ) < Decimal.toRat { value := (B : Int), exp := eb } := by
    rw [hP]; positivity
  have haa : aa < (2 ^ 53 - 1) * 10 ^ 16 * bb := by
    rw [hV, hP] at hsmall
    have h1 : (aa : ℚ) * c < ((2 ^ 53 - 1) * 10 ^ 16 * bb) * c := by
      calc (aa : ℚ) * c < (2 ^ 53 - 1) * ((bb : ℚ) * 10 ^ 16 * c) := hsmall
        _ = ((2 ^ 53 - 1) * 10 ^ 16 * bb) * c := by ring
    have h2 : (aa : ℚ) < (2 ^ 53 - 1) * 10 ^ 16 * bb := lt_of_mul_lt_mul_right h1 (le_of_lt hc)
    have h3 : ((aa : ℕ) : ℚ) < (((2 ^ 53 - 1) * 10 ^ 16 * bb : ℕ) : ℚ) := by
      push_cast
      norm_num at h2 ⊢
      exact h2
    exact_mod_cast h3
  have hQ : aa / bb < (2 ^ 53 - 1) * 10 ^ 16 := (Nat.div_lt_iff_lt_mul hbb).mpr haa
  have hk : aa / bb / 10 ^ 16 < 2 ^ 53 - 1 := (Nat.div_lt_iff_lt_mul hT).mpr hQ
  have hklo : aa / bb / 10 ^ 16 * 10 ^ 16 ≤ aa / bb := Nat.div_mul_le_self _ _
  have hkhi : aa / bb < (aa / bb / 10 ^ 16 + 1) * 10 ^ 16 :=
    (Nat.div_lt_iff_lt_mul hT).mp (Nat.lt_succ_self _)
  generalize hkdef : aa / bb / 10 ^ 16 = k at hk hklo hkhi
  have hqlo : k * 10 ^ 16 ≤ q := by rcases hq with h | h <;> omega
  have hqhi : q ≤ (k + 1) * 10 ^ 16 := by rcases hq with h | h <;> omega
  have hqc : q < 2 ^ 53 * 10 ^ 16 := by
    have : (k + 1) * 10 ^ 16 < 2 ^ 53 * 10 ^ 16 := (Nat.mul_lt_mul_right hT).mpr (by omega)
    omega
  obtain ⟨ht1, ht2⟩ := toInt64_float64_bounds q k hqlo hqhi hqc (by omega)
  generalize htdef : toInt64 (Decimal.Float64 { value := (q : Int), exp := -16 }) = t at ht1 ht2
  obtain ⟨N, rfl⟩ := Int.eq_ofNat_of_zero_le (le_trans (Int.ofNat_nonneg k) ht1)
  have hN : N = k ∨ N = k + 1 := by omega
  -- the quotient as a rational and its floor
  have hx : Decimal.toRat { value := (A : Int), exp := ea } /
      Decimal.toRat { value := (B : Int), exp := eb } = (aa : ℚ) / ((bb : ℚ) * 10 ^ 16) := by
    rw [hV, hP]
    field_simp
    ring
  have hxlo : (k : ℚ) ≤ (aa : ℚ) / ((bb : ℚ) * 10 ^ 16) := by
    rw [le_div_iff₀ hbbT]
    have h1 : k * 10 ^ 16 * bb ≤ aa := by
      calc k * 10 ^ 16 * bb ≤ aa / bb * bb := Nat.mul_le_mul_right _ hklo
        _ ≤ aa := Nat.div_mul_le_self _ _
    have h2 : ((k * 10 ^ 16 * bb : ℕ) : ℚ) ≤ (aa : ℚ) := by exact_mod_cast h1
    push_cast at h2
    linarith
  have hxhi : (aa : ℚ) / ((bb : ℚ) * 10 ^ 16) < (k : ℚ) + 1 := by
    rw [div_lt_iff₀ hbbT]
    have h1 : aa < (k + 1) * 10 ^ 16 * bb := (Nat.div_lt_iff_lt_mul hbb).mp hkhi
    have h2 : (aa : ℚ) < (((k + 1) * 10 ^ 16 * bb : ℕ) : ℚ) := by exact_mod_cast h1
    push_cast at h2
    linarith
  have hfloor : ⌊Decimal.toRat { value := (A : Int), exp := ea } /
      Decimal.toRat { value := (B : Int), exp := eb }⌋ = (k : Int) := by
    rw [hx, Int.floor_eq_iff]
    exact ⟨by exact_mod_cast hxlo, by exact_mod_cast hxhi⟩
  have hVlo : (k : ℚ) * Decimal.toRat { value := (B : Int), exp := eb } ≤
      Decimal.toRat { value := (A : Int), exp := ea } := by
    have := (le_div_iff₀ hPpos).mp (hx ▸ hxlo)
    exact this
  have hVhi : Decimal.toRat { value := (A : Int), exp := ea } <
      ((k : ℚ) + 1) * Decimal.toRat { value := (B : Int), exp := eb } := by
    have := (div_lt_iff₀ hPpos).mp (hx ▸ hxhi)
    exact this
  have hres : (Decimal.Mul (Decimal.NewFromInt (N : Int)) { value := (B : Int), exp := eb }).toRat =
      (N : Int) * Decimal.toRat { value := (B : Int), exp := eb } := by
    simp [Decimal.Mul, Decimal.NewFromInt, Decimal.toRat, mul_assoc]
  refine ⟨(N : Int), ?_, ?_, hres, ?_, ?_, ?_⟩
  · rw [round_shopspring_eq _ _ _ hdiv, htdef]
  · rw [hfloor]
    rcases hN with h | h
    · left; exact_mod_cast h
    · right; exact_mod_cast h
  · have hNk : (N : ℚ) ≤ (k : ℚ) + 1 := by exact_mod_cast ht2
    push_cast
    nlinarith
  · have hNk : (k : ℚ) ≤ (N : ℚ) := by exact_mod_cast ht1
    push_cast
    nlinarith
  · -- rounding a point of the grid again
    have hmul : Decimal.Mul (Decimal.NewFromInt (N : Int)) { value := (B : Int), exp := eb } =
        { value := ((N * B : Nat) : Int), exp := 0 + eb } := by
      simp [Decimal.Mul, Decimal.NewFromInt]
    obtain ⟨aa', bb', q', c', hbb', -, hdiv', hq', hexact', -, -, hgrid⟩ :=
      div_nonneg (N * B) B (0 + eb) eb hB
    have hNB : N * B / B = N := Nat.mul_div_cancel N hB
    have haa' : aa' = N * 10 ^ 16 * bb' := by
      have := hgrid rfl (by rw [hNB])
      rw [hNB] at this
      exact this
    have hq'' : q' = N * 10 ^ 16 := by
      rw [hexact' (by rw [haa']; exact Nat.mul_mod_left _ _), haa']
      exact Nat.mul_div_cancel _ hbb'
    rw [hmul, round_shopspring_eq _ _ _ hdiv', hq'', toInt64_float64_exact N (by omega), ← hmul]

theorem round_near_floor_witness :
    ∃ n : Int,
      Round shopspring { value := 75, exp := -1 } { value := 2, exp := 0 } =
        some (Decimal.Mul (Decimal.NewFromInt n) { value := 2, exp := 0 }) ∧
      (n = ⌊Decimal.toRat { value := 75, exp := -1 } / Decimal.toRat { value := 2, exp := 0 }⌋ ∨
        n = ⌊Decimal.toRat { value := 75, exp := -1 } /
          Decimal.toRat { value := 2, exp := 0 }⌋ + 1) ∧
      (Decimal.Mul (Decimal.NewFromInt n) { value := 2, exp := 0 }).toRat =
        n * Decimal.toRat { value := 2, exp := 0 } ∧
      n * Decimal.toRat { value := 2, exp := 0 } - Decimal.toRat { value := 2, exp := 0 } ≤
        Decimal.toRat { value := 75, exp := -1 } ∧
      Decimal.toRat { value := 75, exp := -1 } <
        n * Decimal.toRat { value := 2, exp := 0 } + Decimal.toRat { value := 2, exp := 0 } ∧
      Round shopspring (Decimal.Mul (Decimal.NewFromInt n) { value := 2, exp := 0 })
          { value := 2, exp := 0 } =
        some (Decimal.Mul (Decimal.NewFromInt n) { value := 2, exp := 0 }) :=
  round_near_floor { value := 75, exp := -1 } { value := 2, exp := 0 } (by decide) (by decide)
    (by norm_num [Decimal.toRat])

theorem div_isSome (val p : Decimal) (hp : p.value ≠ 0) :
    ∃ q, Decimal.Div val p = some q := by
  unfold Decimal.Div Decimal.DivRound
  simp only []
  rw [if_neg hp]
  split_ifs <;> exact ⟨_, rfl⟩

theorem toInt64_range (f : Float64) : -2 ^ 63 ≤ toInt64 f ∧ toInt64 f < 2 ^ 63 := by
  cases f with
  | finite m x =>
    unfold toInt64
    simp only []
    generalize (if 0 ≤ x then m * 2 ^ x.toNat else Int.tdiv m (2 ^ (-x).toNat)) = t
    by_cases h : -2 ^ 63 ≤ t ∧ t < 2 ^ 63
    · rw [if_pos h]; exact h
    · rw [if_neg h]; norm_num
  | inf negative =>
    unfold toInt64
    norm_num

/-- C18: `Round` returns a value for every val and every p that is not zero: the
quotient q of `Div` exists and the result is int64(float64(q)) * p, the factor
being an int64 whether or not q fits; when p is zero `Div` fails and `Round`
returns no value; the three precisions of a symbol built by NewBaseFutureSymbol
or NewBaseSwapSymbol are the zero decimal, so `Round` to any of them returns no
value. -/
theorem round_total_iff_nonzero :
    (∀ val p : Decimal, p.value ≠ 0 →
      ∃ q, Decimal.Div val p = some q ∧
        Round shopspring val p =
          some (Decimal.Mul (Decimal.NewFromInt (toInt64 (Decimal.Float64 q))) p) ∧
        -2 ^ 63 ≤ toInt64 (Decimal.Float64 q) ∧ toInt64 (Decimal.Float64 q) < 2 ^ 63) ∧
    (∀ val p : Decimal, p.value = 0 → Round shopspring val p = none) ∧
    (∀ (Raw Time : Type) (index : Bytes) (st : Time) (typ : FutureType) (val : Decimal),
      (NewBaseFutureSymbol index st typ : BaseFutureSymbol Raw Time).PricePrecision =
          Decimal.zero ∧
        (NewBaseFutureSymbol index st typ : BaseFutureSymbol Raw Time).AmountPrecision =
          Decimal.zero ∧
        (NewBaseFutureSymbol index st typ : BaseFutureSymbol Raw Time).ValuePrecision =
          Decimal.zero ∧
        Round shopspring val
          (NewBaseFutureSymbol index st typ : BaseFutureSymbol Raw Time).PricePrecision =
            none ∧
        Round shopspring val
          (NewBaseFutureSymbol index st typ : BaseFutureSymbol Raw Time).AmountPrecision =
            none ∧
        Round shopspring val
          (NewBaseFutureSymbol index st typ : BaseFutureSymbol Raw Time).ValuePrecision =
            none) ∧
    (∀ (Raw : Type) (index : Bytes) (val : Decimal),
      (NewBaseSwapSymbol index : BaseSwapSymbol Raw).PricePrecision = Decimal.zero ∧
        (NewBaseSwapSymbol index : BaseSwapSymbol Raw).AmountPrecision = Decimal.zero ∧
        (NewBaseSwapSymbol index : BaseSwapSymbol Raw).ValuePrecision = Decimal.zero ∧
        Round shopspring val (NewBaseSwapSymbol index : BaseSwapSymbol Raw).PricePrecision =
          none ∧
        Round shopspring val (NewBaseSwapSymbol index : BaseSwapSymbol Raw).AmountPrecision =
          none ∧
        Round shopspring val (NewBaseSwapSymbol index : BaseSwapSymbol Raw).ValuePrecision =
          none) := by
  have hzero : ∀ val p : Decimal, p.value = 0 → Round shopspring val p = none := by
    intro val p hp
    simp only [Round, shopspring, Decimal.Div, Decimal.DivRound, hp, if_true]
  refine ⟨?_, hzero, ?_, ?_⟩
  · intro val p hp
    obtain ⟨q, hq⟩ := div_isSome val p hp
    exact ⟨q, hq, round_shopspring_eq val p q hq, toInt64_range _⟩
  · intro Raw Time index st typ val
    exact ⟨rfl, rfl, rfl, hzero val _ rfl, hzero val _ rfl, hzero val _ rfl⟩
  · intro Raw index val
    exact ⟨rfl, rfl, rfl, hzero val _ rfl, hzero val _ rfl, hzero val _ rfl⟩

/-- C19: the symbols built by NewBaseFuturesSymbolWithCfg, NewBaseFutureSymbol and
NewBaseSwapSymbol have contract value 1; those built by
NewBaseFuturesSymbolWithCfgCV and NewBaseSwapSymbolWithCfg have the contract
value passed in; in every case Index, and for futures SettleTime and Type,
return the constructor's arguments. -/
theorem contract_value_defaults (Raw Time : Type) (index : Bytes) (st : Time)
    (typ : FutureType) (cfg : SymbolConfig) (cv : Decimal) (raw : Option Raw) :
    ((NewBaseFuturesSymbolWithCfg index st typ cfg raw).ContractVal =
        { value := 1, exp := 0 } ∧
      (NewBaseFuturesSymbolWithCfg index st typ cfg raw).Index = index ∧
      (NewBaseFuturesSymbolWithCfg index st typ cfg raw).SettleTime = st ∧
      (NewBaseFuturesSymbolWithCfg index st typ cfg raw).Typ = typ) ∧
    ((NewBaseFutureSymbol index st typ : BaseFutureSymbol Raw Time).ContractVal =
        { value := 1, exp := 0 } ∧
      (NewBaseFutureSymbol index st typ : BaseFutureSymbol Raw Time).Index = index ∧
      (NewBaseFutureSymbol index st typ : BaseFutureSymbol Raw Time).SettleTime = st ∧
      (NewBaseFutureSymbol index st typ : BaseFutureSymbol Raw Time).Typ = typ) ∧
    ((NewBaseSwapSymbol index : BaseSwapSymbol Raw).ContractVal = { value := 1, exp := 0 } ∧
      (NewBaseSwapSymbol index : BaseSwapSymbol Raw).Index = index) ∧
    ((NewBaseFuturesSymbolWithCfgCV index st typ cfg cv raw).ContractVal = cv ∧
      (NewBaseFuturesSymbolWithCfgCV index st typ cfg cv raw).Index = index ∧
      (NewBaseFuturesSymbolWithCfgCV index st typ cfg cv raw).SettleTime = st ∧
      (NewBaseFuturesSymbolWithCfgCV index st typ cfg cv raw).Typ = typ) ∧
    ((NewBaseSwapSymbolWithCfg index cv cfg raw).ContractVal = cv ∧
      (NewBaseSwapSymbolWithCfg index cv cfg raw).Index = index) :=
  ⟨⟨rfl, rfl, rfl, rfl⟩, ⟨rfl, rfl, rfl, rfl⟩, ⟨rfl, rfl⟩, ⟨rfl, rfl, rfl, rfl⟩, ⟨rfl, rfl⟩⟩

theorem str_call_ne_put : str "CALL" ≠ str "PUT" := by decide

theorem str_call_ne_unkown : str "CALL" ≠ str "UNKOWN" := by decide

theorem str_put_ne_unkown : str "PUT" ≠ str "UNKOWN" := by decide

/-- C20: `OptionType.String` returns "CALL" exactly for OptionTypeCall (0), "PUT"
exactly for OptionTypePut (1) and "UNKOWN" exactly for every other integer, in
particular for the values 2 to 6 of the FutureType constants. -/
theorem option_type_string (ot : OptionType) :
    (OptionType.String ot = str "CALL" ↔ ot = 0) ∧
    (OptionType.String ot = str "PUT" ↔ ot = 1) ∧
    (OptionType.String ot = str "UNKOWN" ↔ ot ≠ 0 ∧ ot ≠ 1) ∧
    OptionTypeCall = 0 ∧ OptionTypePut = 1 ∧
    FutureTypeCW = 2 ∧ FutureTypeNW = 3 ∧ FutureTypeCQ = 4 ∧ FutureTypeNQ = 5 ∧
    FutureTypeNNQ = 6 ∧
    OptionType.String FutureTypeCW = str "UNKOWN" ∧
    OptionType.String FutureTypeNW = str "UNKOWN" ∧
    OptionType.String FutureTypeCQ = str "UNKOWN" ∧
    OptionType.String FutureTypeNQ = str "UNKOWN" ∧
    OptionType.String FutureTypeNNQ = str "UNKOWN" := by
  have h01 : (0 : Int) ≠ 1 := by decide
  refine ⟨?_, ?_, ?_, rfl, rfl, rfl, rfl, rfl, rfl, rfl, by decide, by decide, by decide,
    by decide, by decide⟩
  · unfold OptionType.String OptionTypeCall OptionTypePut
    by_cases h0 : ot = 0
    · simp [h0]
    · by_cases h1 : ot = 1
      · simp [h1, str_call_ne_put.symm]
      · simp [h0, h1, str_call_ne_unkown.symm]
  · unfold OptionType.String OptionTypeCall OptionTypePut
    by_cases h0 : ot = 0
    · simp [h0, str_call_ne_put]
    · by_cases h1 : ot = 1
      · simp [h1]
      · simp [h0, h1, str_put_ne_unkown.symm]
  · unfold OptionType.String OptionTypeCall OptionTypePut
    by_cases h0 : ot = 0
    · simp [h0, str_call_ne_unkown]
    · by_cases h1 : ot = 1
      · simp [h1, str_put_ne_unkown]
      · simp [h0, h1]

end exchange
